import Mathlib

/-!
Verification of the multi-model LLM response pipeline of the
theranosticsChatbot repository: a shallow embedding, in Lean 4, of

* `chatbot.py` — `TheranosticsBot.generate_openrouter_response`
  (ordered model fallback, outcome classification, response parsing,
  conversation logging), shared with the near-duplicate in `app.py`;
* `src/database/mongodb_handler.py` — `MongoDBHandler.log_conversation`
  (atomic conversation upsert) and `MongoDBHandler.save_form_submission`
  (form-field merge upsert), plus the older read-then-write variant in
  the top-level `mongodb_handler.py`.

Python strings are Lean `String`s, `datetime.now()` ticks are `Nat`s
(every `datetime.now()` inside one call is the same tick `now`), MongoDB
documents are association lists or records, and the network is an
environment function handing each outbound request its outcome.  Python
exceptions are an explicit `Except PyExc` monad: primitives that can
throw return `Except`, and each `try/except` block of the source is a
`match` on the propagated error, so "no exception escapes" is a theorem
rather than a typing accident.
-/

namespace Theranostics

/-! ## Python string primitives used by the source -/

/-- `needle` occurs at the front of `hay` (character list form). -/
def leadsWith : List Char → List Char → Bool
  | [], _ => true
  | _ :: _, [] => false
  | a :: as, b :: bs => a == b && leadsWith as bs

/-- `needle` occurs somewhere in `hay`; Python `needle in hay` on strings. -/
def hasSub (needle : List Char) : List Char → Bool
  | [] => leadsWith needle []
  | c :: t => leadsWith needle (c :: t) || hasSub needle t

/-- Python `needle in hay` for strings. -/
def pyContains (hay needle : String) : Bool :=
  hasSub needle.data hay.data

/-- Python `s.lower()` (ASCII view, which is all the source compares). -/
def pyLower (s : String) : String :=
  ⟨s.data.map Char.toLower⟩

/-- Word counting: a word starts at a non-whitespace character preceded
by whitespace (or the start). -/
def pyWordCountAux (prevIsWs : Bool) : List Char → Nat
  | [] => 0
  | c :: cs =>
    (if !c.isWhitespace && prevIsWs then 1 else 0) + pyWordCountAux c.isWhitespace cs

/-- Python `len(s.split())`: count of maximal non-whitespace runs. -/
def pyWordCount (s : String) : Nat :=
  pyWordCountAux true s.data

/-- Python `s.title()`: uppercase each alphabetic character that follows a
non-alphabetic one (or the start), lowercase the rest. -/
def pyTitleAux : Bool → List Char → List Char
  | _, [] => []
  | prevAlpha, c :: cs =>
    (if c.isAlpha then (if prevAlpha then c.toLower else c.toUpper) else c)
      :: pyTitleAux c.isAlpha cs

/-- Python `s.title()`. -/
def pyTitle (s : String) : String :=
  ⟨pyTitleAux false s.data⟩

/-- Python `s.strip()`: drop leading and trailing whitespace. -/
def pyStrip (s : String) : String :=
  ⟨((s.data.dropWhile Char.isWhitespace).reverse.dropWhile
      Char.isWhitespace).reverse⟩

/-! ## Failure classification (`chatbot.py` lines 144–203)

The non-200 branch of `generate_openrouter_response` parses the error
body (`response.json() if response.text else {}`) and computes
`should_fallback` through an `elif` chain; a `ValueError` from an
unparseable body is caught by `except (ValueError, KeyError)` and
treated as retryable.  `ErrBody` is the outcome of that parse:
`unparseable` is a non-empty body `response.json()` rejects, and
`parsed msg` carries `error_data.get('error', {}).get('message', '')`
(an absent or empty body yields `parsed ""`). -/

inductive ErrBody where
  | unparseable : ErrBody
  | parsed (msg : String) : ErrBody
deriving DecidableEq, Repr

/-- The `should_fallback` `elif` chain of `chatbot.py` lines 155–172,
in source order: 429, 503, the three message substrings, then `>= 500`. -/
def shouldFallback (status : Nat) (errorMessage : String) : Bool :=
  if status == 429 then true
  else if status == 503 then true
  else if pyContains (pyLower errorMessage) "rate-limited" then true
  else if pyContains (pyLower errorMessage) "no instances available" then true
  else if pyContains (pyLower errorMessage) "provider returned error" then true
  else if 500 ≤ status then true
  else false

inductive Classification where
  | retry : Classification
  | terminal : Classification
deriving DecidableEq, Repr

/-- The spec's `FallbackClassifier.classify`, read off the source: a
parseable body goes through the `should_fallback` chain; an unparseable
body lands in `except (ValueError, KeyError)`, which always retries. -/
def classify (status : Nat) (body : ErrBody) : Classification :=
  match body with
  | .unparseable => .retry
  | .parsed msg => if shouldFallback status msg then .retry else .terminal

/-- The claim's decision table, conditions in the claim's order
(429, 503, `>= 500`, the three message substrings, unparseable body),
first match winning.  Written from the spec's words, to be compared
against `classify`, which is written from the source. -/
def classifyClaimOrder (status : Nat) (body : ErrBody) : Classification :=
  if status == 429 then .retry
  else if status == 503 then .retry
  else if 500 ≤ status then .retry
  else if (match body with
           | .parsed m => pyContains (pyLower m) "rate-limited"
           | .unparseable => false) then .retry
  else if (match body with
           | .parsed m => pyContains (pyLower m) "no instances available"
           | .unparseable => false) then .retry
  else if (match body with
           | .parsed m => pyContains (pyLower m) "provider returned error"
           | .unparseable => false) then .retry
  else if body == .unparseable then .retry
  else .terminal

/-! ## Outbound message construction (`chatbot.py` lines 34–64 and 75–96) -/

structure ChatMsg where
  role : String
  content : String
deriving DecidableEq, Repr

/-- `_get_system_prompt(lang='en')`, English branch. -/
def systemPromptEn : String :=
  "You are a compassionate AI assistant specializing in patient education about theranostics and nuclear medicine. Help patients understand medical concepts in simple, reassuring terms.\n\nCommunication Guidelines:\n1. Keep answers concise (1-3 sentences for simple questions).\n2. Use simple language; avoid jargon.\n3. Be reassuring and empathetic.\n4. For complex topics: give a brief overview, then offer more detail if requested.\n5. End by inviting follow-up questions.\n6. Remind users to discuss specific medical concerns with their healthcare team.\n\nResponse style: short, clear, 1–2 key points, encourage follow-up."

/-- `_get_system_prompt(lang='de')`, German branch. -/
def systemPromptDe : String :=
  "Sie sind ein mitfühlender KI-Assistent, spezialisiert auf Patientenaufklärung zu Theranostik und Nuklearmedizin. Erklären Sie medizinische Konzepte verständlich, beruhigend und in Alltagssprache.\n\nKommunikationsrichtlinien:\n1. Halten Sie Antworten kurz und klar (1-3 Sätze für einfache Fragen).\n2. Vermeiden Sie Fachjargon; erklären Sie Begriffe einfach.\n3. Seien Sie einfühlsam und beruhigend.\n4. Bei komplexen Themen: kurze Übersicht geben und fragen, ob eine detailliertere Erklärung gewünscht ist.\n5. Schließen Sie mit einer Einladung zu Nachfragen (z. B. \x27Möchten Sie, dass ich einen bestimmten Teil genauer erkläre?\x27).\n6. Erinnern Sie daran, dass spezifische medizinische Fragen mit dem Behandlungsteam besprochen werden sollten.\n\nAntwortstil: Kurz, klar, mit 1–2 wichtigen Punkten; immer zum Nachfragen einladen."

/-- `TheranosticsBot._get_system_prompt`. -/
def getSystemPrompt (lang : String) : String :=
  if lang == "de" then systemPromptDe else systemPromptEn

/-- The extra system message appended when German is requested (line 89). -/
def germanInstruction : String := "Please respond only in German (Deutsch)."

/-- Lines 92–94: a question of fewer than 5 words is expanded. -/
def enhanceMessage (message : String) : String :=
  if pyWordCount message < 5 then
    "Please provide a comprehensive explanation about: " ++ message
  else message

/-- Line 82: `history[-10:] if len(history) > 10 else history`. -/
def truncateHistory (history : List ChatMsg) : List ChatMsg :=
  if history.length > 10 then history.drop (history.length - 10) else history

/-- The `messages` list sent with each request (lines 77–96): system
prompt, the truncated history restricted to user/assistant roles, the
German-only extra instruction, then the (possibly enhanced) user turn.
The source rebuilds this identically on every loop iteration. -/
def buildMessages (lang message : String) (history : List ChatMsg) : List ChatMsg :=
  ⟨"system", getSystemPrompt lang⟩
    :: ((truncateHistory history).filter
          (fun m => m.role == "user" || m.role == "assistant")
        ++ (if lang == "de" then [⟨"system", germanInstruction⟩] else [])
        ++ [⟨"user", enhanceMessage message⟩])

/-! ## Provider outcomes and response parsing (lines 109–126)

`PyExc` names the Python exception classes the source distinguishes:
`requests.exceptions.Timeout` is caught separately from everything else,
`KeyError` alone selects the alternative response formats, and
`(ValueError, KeyError)` select the unparseable-error-body handler. -/

inductive PyExc where
  | timeout : PyExc
  | valueError : PyExc
  | keyError : PyExc
  | attributeError : PyExc
  | generic : PyExc
deriving DecidableEq, Repr

/-- Observable shape of a 200 response body, as the extraction code reads
it.  `choicesPath` is the evaluation of
`result["choices"][0]["message"]["content"]` — a string, or the exception
it raises (`KeyError` for a missing key, something else for a non-dict /
short list / non-string content).  `hasMessage` is `'message' in result`;
`messageContent` is `result['message'].get('content')`; `responseVal` and
`textVal` are `result.get('response')` / `result.get('text')`. -/
structure RespJson where
  choicesPath : Except PyExc String
  hasMessage : Bool
  messageContent : Option String
  responseVal : Option String
  textVal : Option String
deriving Repr

/-- `response.json()` outcome in the 200 branch: an invalid (or empty)
body raises `ValueError`, otherwise the parsed document. -/
inductive Body200 where
  | badJson : Body200
  | ok (r : RespJson) : Body200
deriving Repr

/-- One HTTP response: the status plus both parse views of its body
(`body200` is read only when `status == 200`, `bodyErr` only otherwise). -/
structure HttpResp where
  status : Nat
  body200 : Body200
  bodyErr : ErrBody
deriving Repr

/-- Outcome of `requests.post` for one candidate: a response, a
`requests.exceptions.Timeout`, or any other exception. -/
inductive Outcome where
  | resp (r : HttpResp) : Outcome
  | timeout : Outcome
  | exc : Outcome
deriving Repr

/-- `requests.post(...)` (line 109) as a throwing primitive. -/
def requestsPost (o : Outcome) : Except PyExc HttpResp :=
  match o with
  | .resp r => .ok r
  | .timeout => .error .timeout
  | .exc => .error .generic

/-- Lines 112–126: `result = response.json()`, then the primary
extraction `.strip()`-ed, with `except KeyError` falling through the
alternative formats, and `raise Exception(...)` when none match. -/
def extractContent (b : Body200) : Except PyExc String :=
  match b with
  | .badJson => .error .valueError
  | .ok r =>
    match r.choicesPath with
    | .ok s => .ok (pyStrip s)
    | .error .keyError =>
      if r.hasMessage then .ok (r.messageContent.getD "")
      else match r.responseVal with
        | some s => .ok s
        | none => match r.textVal with
          | some s => .ok s
          | none => .error .generic
    | .error e => .error e

/-! ## User-visible texts (verbatim from `chatbot.py`) -/

/-- Line 129: substituted when the extracted text is empty. -/
def emptyResponseFallback : String :=
  "I understand your question. Could you please provide more details so I can give you a more specific answer?"

/-- Line 137: `model.split('/')[-1].replace(':free', '').replace('-', ' ').title()`. -/
def pyModelDisplayName (model : String) : String :=
  pyTitle ((((model.splitOn "/").getLastD model).replace ":free" "").replace "-" " ")

/-- Line 138: the notice prepended after a successful fallback switch. -/
def switchNotice (model : String) : String :=
  "*I\x27ve switched to a backup model (" ++ pyModelDisplayName model
    ++ ") to ensure I can help you.*\n\n"

/-- Line 186: terminal (non-fallback) error. -/
def terminalErrorText : String :=
  "I encountered an issue with the language model. Please try again or contact support if this persists."

/-- Line 190: exhaustion after the first model had already failed. -/
def exhaustedDegradedText : String :=
  "I\x27m experiencing technical difficulties with all available AI models. Please try again in a few moments, and I\x27ll do my best to help you."

/-- Line 192: exhaustion when the first model had not failed before. -/
def exhaustedAllText : String :=
  "All language models are currently experiencing issues. Please try again in a few moments."

/-- Line 203: exhaustion on an unparseable error body. -/
def unparseableExhaustedText : String :=
  "I\x27m having trouble connecting to the language model. Please try again in a few moments."

/-- Line 213: exhaustion on a timeout of the last candidate. -/
def timeoutExhaustedText : String :=
  "The request timed out. Please try asking your question again."

/-- Line 222: exhaustion on an unexpected exception at the last candidate. -/
def excExhaustedText : String :=
  "I apologize, but I\x27m having trouble processing your request right now. Please try again."

/-- Lines 226/228: the post-loop returns (dead code — every loop
iteration returns or continues, and the model list is never empty). -/
def postLoopDegradedText : String :=
  "I\x27m currently experiencing technical difficulties with all available AI models. Please try again in a few moments, and I\x27ll do my best to help you with your question."

/-- Line 228 companion of `postLoopDegradedText`. -/
def postLoopText : String :=
  "I\x27m unable to process your request at the moment. Please try again later."

/-! ## The fallback loop (`generate_openrouter_response`, lines 66–228) -/

/-- One `conversation_logger.log_conversation(...)` call (line 141):
positional `message` and `assistant_response`, then the keyword
arguments, with `metadata={"lang": lang}`. -/
structure LogEntry where
  userMessage : String
  botResponse : String
  context : String
  sect : Option String
  modelUsed : String
  lang : String
deriving DecidableEq, Repr

/-- One outbound `requests.post` call: the candidate model it named and
the message list it carried. -/
structure Request where
  model : String
  messages : List ChatMsg
deriving DecidableEq, Repr

/-- Observable result of one `generate_openrouter_response` call: the
returned string, the value of `self.current_model` afterwards, the
logger calls made, and the provider requests sent, in order. -/
structure GenResult where
  text : String
  finalModel : String
  logs : List LogEntry
  requests : List Request
deriving DecidableEq, Repr

/-- What one loop iteration decides: `ret` is a `return` (new
`self.current_model`, logger calls made on the way out), `cont` is a
`continue`.  Every `continue` site of the source first runs
`if i == 0: first_model_failed = True`; the loop applies that update
uniformly. -/
inductive LoopAct where
  | ret (text : String) (newCurrent : String) (logs : List LogEntry) : LoopAct
  | cont : LoopAct
deriving Repr

/-- The body of one `for` iteration (lines 74–203) under the outer
`try`: everything up to, but not including, the
`except requests.exceptions.Timeout` / `except Exception` handlers.
`i` is the loop index, `isLast` is `i == len(models_to_try) - 1`,
`flag` is `first_model_failed` on entry, `current` is
`self.current_model`.  Errors this function returns are the exceptions
that reach the outer handlers. -/
def attemptBody (message context : String) (sect : Option String)
    (lang : String) (model : String) (i : Nat) (isLast : Bool)
    (flag : Bool) (current : String) (o : Outcome) :
    Except PyExc LoopAct :=
  match requestsPost o with
  | .error e => .error e
  | .ok resp =>
    if resp.status == 200 then
      match extractContent resp.body200 with
      | .error e => .error e
      | .ok s0 =>
        let s1 := if s0 == "" then emptyResponseFallback else s0
        if i > 0 && model != current then
          let s2 := switchNotice model ++ s1
          .ok (.ret s2 model [⟨message, s2, context, sect, model, lang⟩])
        else
          .ok (.ret s1 current [⟨message, s1, context, sect, model, lang⟩])
    else
      match resp.bodyErr with
      | .unparseable =>
        if !isLast then .ok .cont
        else .ok (.ret unparseableExhaustedText current [])
      | .parsed msg =>
        if shouldFallback resp.status msg && !isLast then
          .ok .cont
        else if !shouldFallback resp.status msg then
          .ok (.ret terminalErrorText current [])
        else
          .ok (.ret (if flag then exhaustedDegradedText else exhaustedAllText)
                current [])

/-- Record this iteration's request in front of whatever the rest of
the loop produced (exceptions pass through). -/
def contStep (req : Request) : Except PyExc GenResult → Except PyExc GenResult
  | .ok r => .ok { r with requests := req :: r.requests }
  | .error e => .error e

/-- The `for i, model in enumerate(models_to_try)` loop with its
`except` handlers and the post-loop returns.  `env i` is the outcome of
the request made on iteration `i`; `msgs` is the (iteration-independent)
message list.  Every `continue` — from the loop body or from a handler —
reaches the next iteration with `first_model_failed` updated to
`flag || i == 0`. -/
def goE (env : Nat → Outcome) (msgs : List ChatMsg) (message context : String)
    (sect : Option String) (lang : String) :
    List String → Nat → Bool → String → Except PyExc GenResult
  | [], _, flag, current =>
    .ok ⟨if flag then postLoopDegradedText else postLoopText, current, [], []⟩
  | model :: rest, i, flag, current =>
    match attemptBody message context sect lang model i rest.isEmpty flag current (env i) with
    | .ok (.ret t c logs) => .ok ⟨t, c, logs, [⟨model, msgs⟩]⟩
    | .ok .cont =>
      contStep ⟨model, msgs⟩
        (goE env msgs message context sect lang rest (i + 1) (flag || i == 0) current)
    | .error .timeout =>
      if rest.isEmpty then .ok ⟨timeoutExhaustedText, current, [], [⟨model, msgs⟩]⟩
      else
        contStep ⟨model, msgs⟩
          (goE env msgs message context sect lang rest (i + 1) (flag || i == 0) current)
    | .error _ =>
      if rest.isEmpty then .ok ⟨excExhaustedText, current, [], [⟨model, msgs⟩]⟩
      else
        contStep ⟨model, msgs⟩
          (goE env msgs message context sect lang rest (i + 1) (flag || i == 0) current)

/-- Line 70: `[self.current_model] + [m for m in BACKUP_MODELS if m != self.current_model]`. -/
def modelsToTry (current : String) (backups : List String) : List String :=
  current :: backups.filter (fun m => m != current)

/-- `TheranosticsBot.generate_openrouter_response(message, history,
context, section, lang)` with `self.current_model = current` and
`BACKUP_MODELS = backups`.  `logOk` is the boolean
`conversation_logger.log_conversation` would return; the source
discards it (line 141), which the theorems below make explicit. -/
def generateE (env : Nat → Outcome) (logOk : Bool) (current : String)
    (backups : List String) (message : String) (history : List ChatMsg)
    (context : String) (sect : Option String) (lang : String) :
    Except PyExc GenResult :=
  goE env (buildMessages lang message history) message context sect lang
    (modelsToTry current backups) 0 false current

/-! ## ConversationStore (`src/database/mongodb_handler.py` lines 187–247)

`MongoDBHandler.log_conversation` issues one
`update_one({"user_id": user_id}, {$push, $inc, $set, $setOnInsert},
upsert=True)`.  The collection is a list of documents; `update_one`
touches the first match of the filter (under the unique `user_id` index
there is at most one).  All `datetime.now()` calls of one invocation are
the single tick `now`; `_get_user_ip()` is the constant below. -/

def localIp : String := "127.0.0.1"

/-- One `conversation_exchange` object (lines 209–217). -/
structure Exchange where
  timestamp : Nat
  userMessage : String
  botResponse : String
  modelUsed : Option String
  context : String
  sect : Option String
  chatbotType : Option String
deriving DecidableEq, Repr

/-- One document of the `conversations` collection. -/
structure ConvDoc where
  userId : String
  createdAt : Nat
  lastUpdated : Nat
  totalExchanges : Nat
  history : List Exchange
  userIp : String
deriving DecidableEq, Repr

/-- `update_one` on the first document matching `{"user_id": uid}`. -/
def updateFirstConv : List ConvDoc → String → (ConvDoc → ConvDoc) → List ConvDoc
  | [], _, _ => []
  | d :: t, uid, f =>
    if d.userId == uid then f d :: t else d :: updateFirstConv t uid f

/-- The upsert of lines 221–234: push the exchange, increment the
counter and set `last_updated` on the matched document, or — when no
document matches — insert one built from the filter, `$setOnInsert`
(`user_id`, `created_at`, `user_ip`) and the push/increment applied to
the fresh document. -/
def convUpsert (db : List ConvDoc) (uid : String) (ex : Exchange) (now : Nat) :
    List ConvDoc :=
  if db.any (fun d => d.userId == uid) then
    updateFirstConv db uid (fun d =>
      { d with history := d.history ++ [ex],
               totalExchanges := d.totalExchanges + 1,
               lastUpdated := now })
  else
    db ++ [⟨uid, now, now, 1, [ex], localIp⟩]

/-- `MongoDBHandler.log_conversation` (newer handler): the
not-connected guard, then the upsert inside `try`, returning `True`;
`except Exception` (a `dbFail`) returns `False` with the store
untouched.  The result is always a `Bool` — never a raised exception. -/
def logConversationE (connected : Bool) (dbFail : Option PyExc)
    (db : List ConvDoc) (uid : String) (ex : Exchange) (now : Nat) :
    Except PyExc (Bool × List ConvDoc) :=
  if !connected then .ok (false, db)
  else
    match dbFail with
    | some _ => .ok (false, db)
    | none => .ok (true, convUpsert db uid ex now)

/-! ## FormStore (`src/database/mongodb_handler.py` lines 249–309)

Form documents are association lists (Python dicts in insertion order).
`save_form_submission` mutates the caller's `data_to_update` in place —
`pop('user_id')`, `pop('session_id')`, then adds
`submission_timestamp` — and issues one `update_one(..., upsert=True)`
with `$set` (the mutated payload plus `last_updated`) and
`$setOnInsert` (`user_id`, `created_at`, `user_ip`). -/

inductive Val where
  | nat (n : Nat) : Val
  | str (s : String) : Val
  | time (t : Nat) : Val
deriving DecidableEq, Repr

/-- `d[k] = v` on a dict: replace the first binding or append one. -/
def setVal : List (String × Val) → String → Val → List (String × Val)
  | [], k, v => [(k, v)]
  | (k0, v0) :: t, k, v =>
    if k0 == k then (k, v) :: t else (k0, v0) :: setVal t k v

/-- `d.pop(k, None)`: remove the binding of `k`. -/
def delKey (d : List (String × Val)) (k : String) : List (String × Val) :=
  d.filter (fun p => p.1 != k)

/-- Apply a `$set` payload to a document, key by key. -/
def setAll (d upd : List (String × Val)) : List (String × Val) :=
  upd.foldl (fun acc p => setVal acc p.1 p.2) d

/-- `update_one` on the first document matching `{keyField: uid}`. -/
def updateFirstForm (keyField : String) :
    List (List (String × Val)) → String →
    (List (String × Val) → List (String × Val)) → List (List (String × Val))
  | [], _, _ => []
  | d :: t, uid, f =>
    if d.lookup keyField == some (.str uid) then f d :: t
    else d :: updateFirstForm keyField t uid f

/-- The caller's `data_to_update` after the in-place mutations of lines
267–273: `pop('user_id', None)`, `pop('session_id', None)`, then
`data_to_update["submission_timestamp"] = datetime.now()`. -/
def newFormMutatedData (data : List (String × Val)) (now : Nat) :
    List (String × Val) :=
  setVal (delKey (delKey data "user_id") "session_id") "submission_timestamp"
    (.time now)

/-- The `$set` payload of lines 277–281: the mutated data unpacked, plus
`last_updated`. -/
def newFormSetPayload (data : List (String × Val)) (now : Nat) :
    List (String × Val) :=
  setVal (newFormMutatedData data now) "last_updated" (.time now)

/-- The upsert of lines 277–294: `$set` on the first match, or insert a
document built from the filter, `$setOnInsert` (`user_id`, `created_at`,
`user_ip`) and the `$set` payload. -/
def formUpsert (db : List (List (String × Val))) (uid : String)
    (payload : List (String × Val)) (now : Nat) : List (List (String × Val)) :=
  if db.any (fun d => d.lookup "user_id" == some (.str uid)) then
    updateFirstForm "user_id" db uid (fun d => setAll d payload)
  else
    db ++ [setAll (setAll [("user_id", .str uid)]
            [("user_id", .str uid), ("created_at", .time now), ("user_ip", .str localIp)])
           payload]

/-- `MongoDBHandler.save_form_submission` (newer handler): the
not-connected and empty-`user_id` guards return `False` with the
caller's data untouched; inside `try` the data is mutated in place and
the upsert issued (`dbFail` = the update throwing, caught by
`except Exception`, returning `False` — but the data stays mutated).
Returns `(success, store, caller's data afterwards)`. -/
def saveFormSubmissionE (connected : Bool) (dbFail : Option PyExc)
    (db : List (List (String × Val))) (uid : String)
    (data : List (String × Val)) (now : Nat) :
    Except PyExc (Bool × List (List (String × Val)) × List (String × Val)) :=
  if !connected then .ok (false, db, data)
  else if uid == "" then .ok (false, db, data)
  else
    match dbFail with
    | some _ => .ok (false, db, newFormMutatedData data now)
    | none =>
      .ok (true, formUpsert db uid (newFormSetPayload data now) now,
           newFormMutatedData data now)

/-! ## The older handler (`mongodb_handler.py` lines 171–221)

Its `save_form_submission(session_id, data_to_update)` pops only
`'session_id'` from the caller's dict (line 185) — not `'user_id'` —
and adds no `submission_timestamp`. -/

/-- The caller's `data_to_update` after the older handler's single
in-place `pop('session_id', None)`. -/
def oldFormMutatedData (data : List (String × Val)) : List (String × Val) :=
  delKey data "session_id"

/-- Older `save_form_submission`: like the newer one but keyed by
`session_id`, stripping only `session_id`, with no
`submission_timestamp`.  Only the mutation of the caller's data matters
to the claims, but the guard structure is kept. -/
def oldSaveFormSubmissionE (connected : Bool) (dbFail : Option PyExc)
    (db : List (List (String × Val))) (sessionId : String)
    (data : List (String × Val)) (now : Nat) :
    Except PyExc (Bool × List (List (String × Val)) × List (String × Val)) :=
  if !connected then .ok (false, db, data)
  else
    match dbFail with
    | some _ => .ok (false, db, oldFormMutatedData data)
    | none =>
      .ok (true,
           (if db.any (fun d => d.lookup "session_id" == some (.str sessionId)) then
             updateFirstForm "session_id" db sessionId (fun d =>
               setAll d (setVal (oldFormMutatedData data) "last_updated" (.time now)))
           else
             db ++ [setAll (setAll [("session_id", .str sessionId)]
                     [("session_id", .str sessionId), ("created_at", .time now),
                      ("user_ip", .str localIp)])
                    (setVal (oldFormMutatedData data) "last_updated" (.time now))]),
           oldFormMutatedData data)

/-! ## Predicates used by the theorem statements -/

/-- The request outcome is a non-200 response with a parseable error
body that the `should_fallback` chain classifies as retryable. -/
def isRetryableStep (o : Outcome) : Bool :=
  match o with
  | .resp r =>
    match r.bodyErr with
    | .parsed m => !(r.status == 200) && shouldFallback r.status m
    | .unparseable => false
  | _ => false

/-- The request outcome is an HTTP 503 with a parseable error body. -/
def is503Step (o : Outcome) : Bool :=
  match o with
  | .resp r =>
    match r.bodyErr with
    | .parsed _ => r.status == 503
    | .unparseable => false
  | _ => false

/-- The documents of the conversations collection carrying `uid`. -/
def docsFor (db : List ConvDoc) (uid : String) : List ConvDoc :=
  db.filter (fun d => d.userId == uid)

/-- The documents of the forms collection carrying `uid`. -/
def formDocsFor (db : List (List (String × Val))) (uid : String) :
    List (List (String × Val)) :=
  db.filter (fun d => d.lookup "user_id" == some (.str uid))

/-- The keys of a form document / payload. -/
def keysOf (d : List (String × Val)) : List String :=
  d.map Prod.fst

/-- The keys `save_form_submission` writes on every call beyond the
caller's own fields, resp. additionally on the insert that creates the
document. -/
def formMetaKeys : List String := ["last_updated", "submission_timestamp"]

/-- Keys written only when the upsert inserts a fresh document. -/
def formInsertKeys : List String := ["user_id", "created_at", "user_ip"]

/-- Every key `save_form_submission` may write besides the caller's own
fields: stripped participant keys, per-write metadata, insert-only
metadata. -/
def specialFormKeys : List String :=
  ["user_id", "session_id", "submission_timestamp", "last_updated",
   "created_at", "user_ip"]

/-- The `$setOnInsert`-built base of a fresh form document. -/
def insertBase (uid : String) (now : Nat) : List (String × Val) :=
  [("user_id", .str uid), ("created_at", .time now), ("user_ip", .str localIp)]

/-! ## Theorems -/

/-- The `should_fallback` chain is the disjunction of its conditions. -/
theorem shouldFallback_iff (s : Nat) (m : String) :
    shouldFallback s m = true ↔
      s = 429 ∨ s = 503 ∨ 500 ≤ s ∨
      pyContains (pyLower m) "rate-limited" = true ∨
      pyContains (pyLower m) "no instances available" = true ∨
      pyContains (pyLower m) "provider returned error" = true := by
  unfold shouldFallback
  split_ifs <;> simp_all <;> omega

/-- C2: the failure classifier returns RETRY exactly when the status is
429, 503 or at least 500, the error message contains one of the three
transient substrings, or the error body is unparseable, and TERMINAL in
every other case; evaluating the conditions in the claim's order with
the first match winning (`classifyClaimOrder`) yields the same
classifier as the source's order (`classify`). -/
theorem c2_classifier_decision_table (s : Nat) (b : ErrBody) :
    classify s b = classifyClaimOrder s b ∧
    (classify s b = .retry ↔
      s = 429 ∨ s = 503 ∨ 500 ≤ s ∨
      (∃ m, b = .parsed m ∧
        (pyContains (pyLower m) "rate-limited" = true ∨
         pyContains (pyLower m) "no instances available" = true ∨
         pyContains (pyLower m) "provider returned error" = true)) ∨
      b = .unparseable) := by
  cases b with
  | unparseable =>
    constructor
    · unfold classify classifyClaimOrder
      split_ifs <;> simp_all
    · simp [classify]
  | parsed m =>
    constructor
    · unfold classify classifyClaimOrder shouldFallback
      split_ifs <;> simp_all <;> omega
    · by_cases hf : shouldFallback s m = true
      · have hfd := hf
        rw [shouldFallback_iff] at hfd
        simp only [classify, hf, if_true]
        refine iff_of_true (by trivial) ?_
        rcases hfd with h | h | h | h | h | h
        · exact Or.inl h
        · exact Or.inr (Or.inl h)
        · exact Or.inr (Or.inr (Or.inl h))
        · exact Or.inr (Or.inr (Or.inr (Or.inl ⟨m, rfl, Or.inl h⟩)))
        · exact Or.inr (Or.inr (Or.inr (Or.inl ⟨m, rfl, Or.inr (Or.inl h)⟩)))
        · exact Or.inr (Or.inr (Or.inr (Or.inl ⟨m, rfl, Or.inr (Or.inr h)⟩)))
      · have hf2 := hf
        rw [shouldFallback_iff] at hf2
        push_neg at hf2
        rw [Bool.not_eq_true] at hf
        simp only [classify, hf, Bool.false_eq_true, if_false]
        refine iff_of_false (by simp) ?_
        rintro (h | h | h | ⟨m2, hm2, hc⟩ | h)
        · exact absurd h hf2.1
        · exact absurd h hf2.2.1
        · omega
        · cases hm2
          rcases hc with h | h | h
          · exact absurd h hf2.2.2.2.1
          · exact absurd h hf2.2.2.2.2.1
          · exact absurd h hf2.2.2.2.2.2
        · cases h

/-- Destructuring a retryable step. -/
theorem isRetryableStep_shape (o : Outcome) (h : isRetryableStep o = true) :
    ∃ st b m, o = .resp ⟨st, b, .parsed m⟩ ∧ (st == 200) = false ∧
      shouldFallback st m = true := by
  match o with
  | .resp ⟨st, b, .parsed m⟩ =>
    simp only [isRetryableStep, Bool.and_eq_true, Bool.not_eq_true'] at h
    exact ⟨st, b, m, rfl, h.1, h.2⟩
  | .resp ⟨st, b, .unparseable⟩ => simp [isRetryableStep] at h
  | .timeout => simp [isRetryableStep] at h
  | .exc => simp [isRetryableStep] at h

/-- Destructuring a 503 step. -/
theorem is503Step_shape (o : Outcome) (h : is503Step o = true) :
    ∃ b m, o = .resp ⟨503, b, .parsed m⟩ := by
  match o with
  | .resp ⟨st, b, .parsed m⟩ =>
    simp only [is503Step, beq_iff_eq] at h
    subst h
    exact ⟨b, m, rfl⟩
  | .resp ⟨st, b, .unparseable⟩ => simp [is503Step] at h
  | .timeout => simp [is503Step] at h
  | .exc => simp [is503Step] at h

/-- A 503 step is retryable. -/
theorem is503Step_retryable (o : Outcome) (h : is503Step o = true) :
    isRetryableStep o = true := by
  match o with
  | .resp ⟨st, b, .parsed m⟩ =>
    simp only [is503Step, beq_iff_eq] at h
    subst h
    simp [isRetryableStep, shouldFallback]
  | .resp ⟨st, b, .unparseable⟩ => simp [is503Step] at h
  | .timeout => simp [is503Step] at h
  | .exc => simp [is503Step] at h

/-- A retryable failure on a non-final candidate makes the loop body
`continue`, marking `first_model_failed` when this was candidate 0. -/
theorem attemptBody_retry (message context : String) (sect : Option String)
    (lang model : String) (i : Nat) (flag : Bool) (current : String)
    (st : Nat) (b : Body200) (m : String)
    (hst : (st == 200) = false) (hsf : shouldFallback st m = true) :
    attemptBody message context sect lang model i false flag current
      (.resp ⟨st, b, .parsed m⟩) = .ok .cont := by
  unfold attemptBody requestsPost
  simp [hst, hsf]

/-- A terminal failure (`should_fallback` false, parseable body) returns
the terminal error text at once, whatever `isLast` is. -/
theorem attemptBody_terminal (message context : String) (sect : Option String)
    (lang model : String) (i : Nat) (isLast flag : Bool) (current : String)
    (st : Nat) (b : Body200) (m : String)
    (hst : (st == 200) = false) (hsf : shouldFallback st m = false) :
    attemptBody message context sect lang model i isLast flag current
      (.resp ⟨st, b, .parsed m⟩) = .ok (.ret terminalErrorText current []) := by
  unfold attemptBody requestsPost
  simp [hst, hsf]

/-- A retryable failure on the final candidate returns the exhaustion
text selected by `first_model_failed`. -/
theorem attemptBody_exhaust (message context : String) (sect : Option String)
    (lang model : String) (i : Nat) (flag : Bool) (current : String)
    (st : Nat) (b : Body200) (m : String)
    (hst : (st == 200) = false) (hsf : shouldFallback st m = true) :
    attemptBody message context sect lang model i true flag current
      (.resp ⟨st, b, .parsed m⟩) =
      .ok (.ret (if flag then exhaustedDegradedText else exhaustedAllText)
            current []) := by
  unfold attemptBody requestsPost
  simp [hst, hsf]

/-- A 200 response whose extraction yields non-empty `s` returns: `s`
with the pointer untouched on candidate 0, or the switch notice plus `s`
with the pointer moved on a later distinct candidate. -/
theorem attemptBody_success (message context : String) (sect : Option String)
    (lang model : String) (i : Nat) (isLast flag : Bool) (current : String)
    (b : Body200) (be : ErrBody) (s : String)
    (hext : extractContent b = .ok s) (hs : (s == "") = false) :
    attemptBody message context sect lang model i isLast flag current
      (.resp ⟨200, b, be⟩) =
      (if i > 0 && model != current then
        .ok (.ret (switchNotice model ++ s) model
          [⟨message, switchNotice model ++ s, context, sect, model, lang⟩])
      else
        .ok (.ret s current [⟨message, s, context, sect, model, lang⟩])) := by
  unfold attemptBody requestsPost
  simp [hext, hs]

/-- One-step unfolding of `goE` when the iteration returns. -/
theorem goE_cons_ret (env : Nat → Outcome) (msgs : List ChatMsg)
    (message context : String) (sect : Option String) (lang : String)
    (model : String) (rest : List String) (i : Nat) (flag : Bool)
    (current : String) (t c : String) (logs : List LogEntry)
    (hA : attemptBody message context sect lang model i rest.isEmpty flag
      current (env i) = .ok (.ret t c logs)) :
    goE env msgs message context sect lang (model :: rest) i flag current =
      .ok ⟨t, c, logs, [⟨model, msgs⟩]⟩ := by
  rw [goE, hA]

/-- One-step unfolding of `goE` when the iteration continues. -/
theorem goE_cons_cont (env : Nat → Outcome) (msgs : List ChatMsg)
    (message context : String) (sect : Option String) (lang : String)
    (model : String) (rest : List String) (i : Nat) (flag : Bool)
    (current : String)
    (hA : attemptBody message context sect lang model i rest.isEmpty flag
      current (env i) = .ok .cont) :
    goE env msgs message context sect lang (model :: rest) i flag current =
      contStep ⟨model, msgs⟩
        (goE env msgs message context sect lang rest (i + 1) (flag || i == 0)
          current) := by
  rw [goE, hA]

/-- One-step unfolding of `goE` on a `requests.exceptions.Timeout`. -/
theorem goE_cons_timeout (env : Nat → Outcome) (msgs : List ChatMsg)
    (message context : String) (sect : Option String) (lang : String)
    (model : String) (rest : List String) (i : Nat) (flag : Bool)
    (current : String)
    (hA : attemptBody message context sect lang model i rest.isEmpty flag
      current (env i) = .error .timeout) :
    goE env msgs message context sect lang (model :: rest) i flag current =
      (if rest.isEmpty then
        .ok ⟨timeoutExhaustedText, current, [], [⟨model, msgs⟩]⟩
      else
        contStep ⟨model, msgs⟩
          (goE env msgs message context sect lang rest (i + 1) (flag || i == 0)
            current)) := by
  rw [goE, hA]

/-- One-step unfolding of `goE` on any other exception. -/
theorem goE_cons_exc (env : Nat → Outcome) (msgs : List ChatMsg)
    (message context : String) (sect : Option String) (lang : String)
    (model : String) (rest : List String) (i : Nat) (flag : Bool)
    (current : String) (e : PyExc) (hne : e ≠ .timeout)
    (hA : attemptBody message context sect lang model i rest.isEmpty flag
      current (env i) = .error e) :
    goE env msgs message context sect lang (model :: rest) i flag current =
      (if rest.isEmpty then
        .ok ⟨excExhaustedText, current, [], [⟨model, msgs⟩]⟩
      else
        contStep ⟨model, msgs⟩
          (goE env msgs message context sect lang rest (i + 1) (flag || i == 0)
            current)) := by
  rw [goE, hA]
  cases e with
  | timeout => exact absurd rfl hne
  | valueError => rfl
  | keyError => rfl
  | attributeError => rfl
  | generic => rfl

/-- If the first `K` candidates fail retryably, the loop reaches
candidate `K` with `first_model_failed` set exactly when candidate 0 was
among the failures, having sent one request per skipped candidate. -/
theorem goE_skip (env : Nat → Outcome) (msgs : List ChatMsg)
    (message context : String) (sect : Option String) (lang : String) :
    ∀ (K : Nat) (models : List String) (i : Nat) (flag : Bool)
      (current : String) (r : GenResult),
      K < models.length →
      (∀ j, j < K → isRetryableStep (env (i + j)) = true) →
      goE env msgs message context sect lang (models.drop K) (i + K)
        (flag || ((i == 0) && !(K == 0))) current = .ok r →
      goE env msgs message context sect lang models i flag current =
        .ok { r with requests :=
                (models.take K).map (fun m => ⟨m, msgs⟩) ++ r.requests } := by
  intro K
  induction K with
  | zero =>
    intro models i flag current r hK hretry h0
    simp only [List.drop_zero, Nat.add_zero, List.take_zero, List.map_nil,
      List.nil_append] at h0 ⊢
    have hb : (flag || ((i == 0) && !((0 : Nat) == 0))) = flag := by simp
    rw [hb] at h0
    rw [h0]
  | succ K ih =>
    intro models i flag current r hK hretry h0
    match models, hK with
    | m :: rest, hK =>
      have hlen : K < rest.length := by
        simpa using Nat.lt_of_succ_lt_succ hK
      match rest, hlen with
      | m2 :: rest2, hlen =>
        obtain ⟨st, b, mm, henv, hst, hsf⟩ :=
          isRetryableStep_shape _ (by simpa using hretry 0 (Nat.succ_pos K))
        have e1 : ((K + 1 : Nat) == 0) = false := rfl
        have e2 : ((i + 1 : Nat) == 0) = false := rfl
        have hretry2 : ∀ j, j < K → isRetryableStep (env (i + 1 + j)) = true := by
          intro j hj
          have h := hretry (j + 1) (Nat.succ_lt_succ hj)
          have heq : i + (j + 1) = i + 1 + j := by omega
          rwa [heq] at h
        have h02 : goE env msgs message context sect lang
            ((m2 :: rest2).drop K) (i + 1 + K)
            ((flag || (i == 0)) || (((i + 1) == 0) && !(K == 0))) current = .ok r := by
          have hd : (m :: m2 :: rest2).drop (K + 1) = (m2 :: rest2).drop K := rfl
          have hi : i + (K + 1) = i + 1 + K := by omega
          have hbb : (flag || ((i == 0) && !((K + 1 : Nat) == 0)))
              = ((flag || (i == 0)) || (((i + 1 : Nat) == 0) && !(K == 0))) := by
            rw [e1, e2]; simp
          rw [hd, hi, hbb] at h0
          exact h0
        have ih2 := ih (m2 :: rest2) (i + 1) (flag || (i == 0)) current r hlen
          hretry2 h02
        have hA : attemptBody message context sect lang m i
            (m2 :: rest2).isEmpty flag current (env i) = .ok .cont := by
          rw [henv]
          exact attemptBody_retry message context sect lang m i flag current
            st b mm hst hsf
        rw [goE_cons_cont env msgs message context sect lang m (m2 :: rest2) i
          flag current hA, ih2]
        rfl

/-- Candidate `K ≥ 1` of `models_to_try` differs from the current model:
the list is the current model followed by the backups filtered to those
differing from it. -/
theorem modelsToTry_get_ne (current : String) (backups : List String)
    (K : Nat) (hK : K < (modelsToTry current backups).length) (h : 0 < K) :
    ((modelsToTry current backups).get ⟨K, hK⟩ != current) = true := by
  match K, h with
  | K' + 1, _ =>
    have hK' : K' < (backups.filter (fun m => m != current)).length := by
      simpa [modelsToTry] using hK
    have he : (modelsToTry current backups).get ⟨K' + 1, hK⟩ =
        (backups.filter (fun m => m != current)).get ⟨K', hK'⟩ := rfl
    rw [he]
    have hm : (backups.filter (fun m => m != current)).get ⟨K', hK'⟩ ∈
        backups.filter (fun m => m != current) := List.get_mem _ _ hK'
    exact (List.mem_filter.mp hm).2

/-- Full characterisation of a run whose first `K` candidates fail
retryably and whose candidate `K` answers 200 with parseable non-empty
content `s`: the returned text (notice-prefixed when `K ≥ 1`), the moved
pointer, the one logger call carrying the returned text, and the `K+1`
requests sent. -/
theorem generate_success_run (env : Nat → Outcome) (logOk : Bool)
    (current : String) (backups : List String) (message : String)
    (history : List ChatMsg) (context : String) (sect : Option String)
    (lang : String) (K : Nat) (b : Body200) (be : ErrBody) (s : String)
    (hK : K < (modelsToTry current backups).length)
    (hfail : ∀ j, j < K → isRetryableStep (env j) = true)
    (henv : env K = .resp ⟨200, b, be⟩)
    (hext : extractContent b = .ok s)
    (hs : (s == "") = false) :
    generateE env logOk current backups message history context sect lang =
      .ok ⟨(if K = 0 then s
            else switchNotice ((modelsToTry current backups).get ⟨K, hK⟩) ++ s),
           (modelsToTry current backups).get ⟨K, hK⟩,
           [⟨message,
             (if K = 0 then s
              else switchNotice ((modelsToTry current backups).get ⟨K, hK⟩) ++ s),
             context, sect, (modelsToTry current backups).get ⟨K, hK⟩, lang⟩],
           ((modelsToTry current backups).take K).map
             (fun m => ⟨m, buildMessages lang message history⟩)
             ++ [⟨(modelsToTry current backups).get ⟨K, hK⟩,
                  buildMessages lang message history⟩]⟩ := by
  have hdrop : (modelsToTry current backups).drop K =
      (modelsToTry current backups).get ⟨K, hK⟩
        :: (modelsToTry current backups).drop (K + 1) := by
    rw [List.get_eq_getElem]
    exact List.drop_eq_getElem_cons hK
  have hfail0 : ∀ j, j < K → isRetryableStep (env (0 + j)) = true := by
    intro j hj
    rw [Nat.zero_add]
    exact hfail j hj
  rcases Nat.eq_zero_or_pos K with hK0 | hKpos
  · subst hK0
    have hget : (modelsToTry current backups).get ⟨0, hK⟩ = current := rfl
    have hA : attemptBody message context sect lang current 0
        ((modelsToTry current backups).drop 1).isEmpty false current (env 0) =
        .ok (.ret s current [⟨message, s, context, sect, current, lang⟩]) := by
      rw [henv, attemptBody_success message context sect lang current 0
        ((modelsToTry current backups).drop 1).isEmpty false current b be s
        hext hs]
      simp
    have hgo : goE env (buildMessages lang message history) message context
        sect lang (modelsToTry current backups) 0 false current =
        .ok ⟨s, current, [⟨message, s, context, sect, current, lang⟩],
             [⟨current, buildMessages lang message history⟩]⟩ := by
      have hm : modelsToTry current backups =
          current :: (modelsToTry current backups).drop 1 := rfl
      rw [hm]
      exact goE_cons_ret env (buildMessages lang message history) message
        context sect lang current ((modelsToTry current backups).drop 1) 0
        false current s current [⟨message, s, context, sect, current, lang⟩] hA
    unfold generateE
    exact hgo
  · have hKne : (K == 0) = false := by
      simp [Nat.pos_iff_ne_zero.mp hKpos]
    have hflag : (false || (((0 : Nat) == 0) && !(K == 0))) = true := by
      rw [hKne]; rfl
    have hgetne := modelsToTry_get_ne current backups K hK hKpos
    have hA : attemptBody message context sect lang
        ((modelsToTry current backups).get ⟨K, hK⟩) K
        ((modelsToTry current backups).drop (K + 1)).isEmpty true current
        (env K) =
        .ok (.ret (switchNotice ((modelsToTry current backups).get ⟨K, hK⟩) ++ s)
              ((modelsToTry current backups).get ⟨K, hK⟩)
              [⟨message,
                switchNotice ((modelsToTry current backups).get ⟨K, hK⟩) ++ s,
                context, sect,
                (modelsToTry current backups).get ⟨K, hK⟩, lang⟩]) := by
      rw [henv, attemptBody_success message context sect lang
        ((modelsToTry current backups).get ⟨K, hK⟩) K
        ((modelsToTry current backups).drop (K + 1)).isEmpty true current
        b be s hext hs]
      have hgt : (decide (K > 0) && ((modelsToTry current backups).get ⟨K, hK⟩
          != current)) = true := by
        rw [hgetne, decide_eq_true hKpos]
        rfl
      simp only [hgt, if_true]
    have hhead : goE env (buildMessages lang message history) message context
        sect lang ((modelsToTry current backups).drop K) (0 + K) true current =
        .ok ⟨switchNotice ((modelsToTry current backups).get ⟨K, hK⟩) ++ s,
             (modelsToTry current backups).get ⟨K, hK⟩,
             [⟨message,
               switchNotice ((modelsToTry current backups).get ⟨K, hK⟩) ++ s,
               context, sect, (modelsToTry current backups).get ⟨K, hK⟩, lang⟩],
             [⟨(modelsToTry current backups).get ⟨K, hK⟩,
               buildMessages lang message history⟩]⟩ := by
      rw [Nat.zero_add, hdrop]
      exact goE_cons_ret env (buildMessages lang message history) message
        context sect lang ((modelsToTry current backups).get ⟨K, hK⟩)
        ((modelsToTry current backups).drop (K + 1)) K true current _ _ _ hA
    have hmain := goE_skip env (buildMessages lang message history) message
      context sect lang K (modelsToTry current backups) 0 false current
      ⟨switchNotice ((modelsToTry current backups).get ⟨K, hK⟩) ++ s,
       (modelsToTry current backups).get ⟨K, hK⟩,
       [⟨message, switchNotice ((modelsToTry current backups).get ⟨K, hK⟩) ++ s,
         context, sect, (modelsToTry current backups).get ⟨K, hK⟩, lang⟩],
       [⟨(modelsToTry current backups).get ⟨K, hK⟩,
         buildMessages lang message history⟩]⟩
      hK hfail0 (by rw [hflag]; exact hhead)
    have hif : (if K = 0 then s
        else switchNotice ((modelsToTry current backups).get ⟨K, hK⟩) ++ s) =
        switchNotice ((modelsToTry current backups).get ⟨K, hK⟩) ++ s :=
      if_neg (Nat.pos_iff_ne_zero.mp hKpos)
    rw [hif]
    unfold generateE
    exact hmain

/-- C1: if the first `K` candidates fail with retryable errors and
candidate `K+1` (index `K`) returns HTTP 200 with parseable non-empty
content `s`, `generate` returns the success text — prefixed with the
switch notice naming the model exactly when `K ≥ 1` — and the
active-model pointer afterwards equals candidate `K+1`'s identifier. -/
theorem c1_fallback_ordering (env : Nat → Outcome) (logOk : Bool)
    (current : String) (backups : List String) (message : String)
    (history : List ChatMsg) (context : String) (sect : Option String)
    (lang : String) (K : Nat) (b : Body200) (be : ErrBody) (s : String)
    (hK : K < (modelsToTry current backups).length)
    (hfail : ∀ j, j < K → isRetryableStep (env j) = true)
    (henv : env K = .resp ⟨200, b, be⟩)
    (hext : extractContent b = .ok s)
    (hs : (s == "") = false) :
    ∃ r, generateE env logOk current backups message history context sect lang
        = .ok r ∧
      r.finalModel = (modelsToTry current backups).get ⟨K, hK⟩ ∧
      r.text = (if K = 0 then s
                else switchNotice ((modelsToTry current backups).get ⟨K, hK⟩) ++ s) :=
  ⟨_, generate_success_run env logOk current backups message history context
    sect lang K b be s hK hfail henv hext hs, rfl, rfl⟩

/-- C1 witness: the spec's scenario — primary `m1` answers 503, backup
`m2` answers 200 with content `Hello`; `generate` returns the
switch-notice-prefixed text and the pointer reads `m2`. -/
theorem c1_fallback_ordering_witness :
    ∃ r, generateE
        (fun j => if j == 0 then .resp ⟨503, .badJson, .parsed ""⟩
          else .resp ⟨200, .ok ⟨.ok "Hello", false, none, none, none⟩,
                 .parsed ""⟩)
        true "m1" ["m2"] "Hi" [] "main_chat" none "en" = .ok r ∧
      r.finalModel = "m2" ∧
      r.text = switchNotice "m2" ++ "Hello" := by
  obtain ⟨r, h1, h2, h3⟩ := c1_fallback_ordering
    (fun j => if j == 0 then .resp ⟨503, .badJson, .parsed ""⟩
      else .resp ⟨200, .ok ⟨.ok "Hello", false, none, none, none⟩, .parsed ""⟩)
    true "m1" ["m2"] "Hi" [] "main_chat" none "en" 1
    (.ok ⟨.ok "Hello", false, none, none, none⟩) (.parsed "") "Hello"
    (by decide) (by decide) rfl (by rfl) rfl
  refine ⟨r, h1, ?_, ?_⟩
  · rw [h2]; rfl
  · rw [h3]; rfl

/-- Full characterisation of a run whose first `K` candidates fail
retryably and whose candidate `K` fails terminally: the terminal text,
the untouched pointer, no logger call, and exactly the `K+1` requests
sent so far. -/
theorem generate_terminal_run (env : Nat → Outcome) (logOk : Bool)
    (current : String) (backups : List String) (message : String)
    (history : List ChatMsg) (context : String) (sect : Option String)
    (lang : String) (K st : Nat) (b : Body200) (m : String)
    (hK : K < (modelsToTry current backups).length)
    (hfail : ∀ j, j < K → isRetryableStep (env j) = true)
    (henv : env K = .resp ⟨st, b, .parsed m⟩)
    (hst : (st == 200) = false)
    (hterm : shouldFallback st m = false) :
    generateE env logOk current backups message history context sect lang =
      .ok ⟨terminalErrorText, current, [],
           ((modelsToTry current backups).take K).map
             (fun m2 => ⟨m2, buildMessages lang message history⟩)
             ++ [⟨(modelsToTry current backups).get ⟨K, hK⟩,
                  buildMessages lang message history⟩]⟩ := by
  have hdrop : (modelsToTry current backups).drop K =
      (modelsToTry current backups).get ⟨K, hK⟩
        :: (modelsToTry current backups).drop (K + 1) := by
    rw [List.get_eq_getElem]
    exact List.drop_eq_getElem_cons hK
  have hfail0 : ∀ j, j < K → isRetryableStep (env (0 + j)) = true := by
    intro j hj
    rw [Nat.zero_add]
    exact hfail j hj
  have hA : attemptBody message context sect lang
      ((modelsToTry current backups).get ⟨K, hK⟩) K
      ((modelsToTry current backups).drop (K + 1)).isEmpty
      (false || (((0 : Nat) == 0) && !(K == 0))) current (env K) =
      .ok (.ret terminalErrorText current []) := by
    rw [henv]
    exact attemptBody_terminal message context sect lang
      ((modelsToTry current backups).get ⟨K, hK⟩) K
      ((modelsToTry current backups).drop (K + 1)).isEmpty
      (false || (((0 : Nat) == 0) && !(K == 0))) current st b m hst hterm
  have hhead : goE env (buildMessages lang message history) message context
      sect lang ((modelsToTry current backups).drop K) (0 + K)
      (false || (((0 : Nat) == 0) && !(K == 0))) current =
      .ok ⟨terminalErrorText, current, [],
           [⟨(modelsToTry current backups).get ⟨K, hK⟩,
             buildMessages lang message history⟩]⟩ := by
    rw [Nat.zero_add, hdrop]
    exact goE_cons_ret env (buildMessages lang message history) message
      context sect lang ((modelsToTry current backups).get ⟨K, hK⟩)
      ((modelsToTry current backups).drop (K + 1)) K
      (false || (((0 : Nat) == 0) && !(K == 0))) current _ _ _ hA
  have hmain := goE_skip env (buildMessages lang message history) message
    context sect lang K (modelsToTry current backups) 0 false current
    ⟨terminalErrorText, current, [],
     [⟨(modelsToTry current backups).get ⟨K, hK⟩,
       buildMessages lang message history⟩]⟩
    hK hfail0 hhead
  unfold generateE
  exact hmain

/-- C3: after any run of retryable failures, a candidate whose failure
is classified terminal (non-2xx, parseable body matching no retryable
condition) makes `generate` return the terminal-error text at once: one
request per tried candidate and none to any later candidate, the
pointer untouched, nothing logged. -/
theorem c3_terminal_short_circuit (env : Nat → Outcome) (logOk : Bool)
    (current : String) (backups : List String) (message : String)
    (history : List ChatMsg) (context : String) (sect : Option String)
    (lang : String) (K st : Nat) (b : Body200) (m : String)
    (hK : K < (modelsToTry current backups).length)
    (hfail : ∀ j, j < K → isRetryableStep (env j) = true)
    (henv : env K = .resp ⟨st, b, .parsed m⟩)
    (hst : (st == 200) = false)
    (hterm : shouldFallback st m = false) :
    ∃ r, generateE env logOk current backups message history context sect lang
        = .ok r ∧
      r.text = terminalErrorText ∧
      r.requests.length = K + 1 ∧
      r.finalModel = current ∧
      r.logs = [] := by
  refine ⟨_, generate_terminal_run env logOk current backups message history
    context sect lang K st b m hK hfail henv hst hterm, rfl, ?_, rfl, rfl⟩
  simp [List.length_take, Nat.min_eq_left (Nat.le_of_lt hK)]

/-- C3 witness: candidate 0 rate-limited (429), candidate 1 answering
HTTP 400 with a non-matching parseable body; `generate` stops there with
the terminal text, never calling candidate 2. -/
theorem c3_terminal_short_circuit_witness :
    ∃ r, generateE
        (fun j => if j == 0 then .resp ⟨429, .badJson, .parsed ""⟩
          else .resp ⟨400, .badJson, .parsed "Bad request"⟩)
        true "m1" ["m2", "m3"] "Hi" [] "main_chat" none "en" = .ok r ∧
      r.text = terminalErrorText ∧
      r.requests.length = 2 ∧
      r.finalModel = "m1" ∧
      r.logs = [] := by
  have h := c3_terminal_short_circuit
    (fun j => if j == 0 then .resp ⟨429, .badJson, .parsed ""⟩
      else .resp ⟨400, .badJson, .parsed "Bad request"⟩)
    true "m1" ["m2", "m3"] "Hi" [] "main_chat" none "en" 1 400 .badJson
    "Bad request" (by decide) (by decide) rfl (by decide) (by decide)
  exact h

/-- C4 counterexample: with two candidates both answering HTTP 503,
`generate` returns the line-190 "technical difficulties with all
available AI models" text — not the "All language models are currently
experiencing issues" text the claim names (that one is only reached
when `first_model_failed` is still unset, i.e. with a single
candidate).  The pointer is unchanged, as the claim also says. -/
theorem c4_exhaustion_counterexample :
    ∃ r, generateE (fun _ => .resp ⟨503, .badJson, .parsed ""⟩) true "m1"
        ["m2"] "Hi" [] "main_chat" none "en" = .ok r ∧
      r.text ≠ exhaustedAllText ∧
      r.text = exhaustedDegradedText ∧
      r.finalModel = "m1" := by
  refine ⟨⟨exhaustedDegradedText, "m1", [],
           [⟨"m1", buildMessages "en" "Hi" []⟩,
            ⟨"m2", buildMessages "en" "Hi" []⟩]⟩, by rfl, by decide, rfl, rfl⟩

/-- Full characterisation of an all-503 run: every candidate is tried
once, the pointer stays, nothing is logged, and the returned text is
selected by the `first_model_failed` flag the last iteration sees. -/
theorem generate_exhaust503_run (env : Nat → Outcome) (logOk : Bool)
    (current : String) (backups : List String) (message : String)
    (history : List ChatMsg) (context : String) (sect : Option String)
    (lang : String)
    (hK : (modelsToTry current backups).length - 1 <
      (modelsToTry current backups).length)
    (h503 : ∀ j, j < (modelsToTry current backups).length →
      is503Step (env j) = true) :
    generateE env logOk current backups message history context sect lang =
      .ok ⟨(if (false || (((0 : Nat) == 0) &&
              !((modelsToTry current backups).length - 1 == 0))) then
              exhaustedDegradedText
            else exhaustedAllText), current, [],
           ((modelsToTry current backups).take
               ((modelsToTry current backups).length - 1)).map
             (fun m => ⟨m, buildMessages lang message history⟩)
             ++ [⟨(modelsToTry current backups).get
                   ⟨(modelsToTry current backups).length - 1, hK⟩,
                  buildMessages lang message history⟩]⟩ := by
  have hlen : 0 < (modelsToTry current backups).length := by
    simp [modelsToTry]
  have hfail0 : ∀ j, j < (modelsToTry current backups).length - 1 →
      isRetryableStep (env (0 + j)) = true := by
    intro j hj
    rw [Nat.zero_add]
    exact is503Step_retryable _ (h503 j (by omega))
  obtain ⟨b, m, henvK⟩ := is503Step_shape _
    (h503 ((modelsToTry current backups).length - 1) hK)
  have hsf : shouldFallback 503 m = true := rfl
  have hdropK1 : (modelsToTry current backups).drop
      ((modelsToTry current backups).length - 1 + 1) = [] := by
    have he : (modelsToTry current backups).length - 1 + 1 =
        (modelsToTry current backups).length := by omega
    rw [he]
    exact List.drop_length _
  have hdrop : (modelsToTry current backups).drop
      ((modelsToTry current backups).length - 1) =
      [(modelsToTry current backups).get
        ⟨(modelsToTry current backups).length - 1, hK⟩] := by
    rw [List.get_eq_getElem, List.drop_eq_getElem_cons hK, hdropK1]
  have hA : attemptBody message context sect lang
      ((modelsToTry current backups).get
        ⟨(modelsToTry current backups).length - 1, hK⟩)
      ((modelsToTry current backups).length - 1) ([] : List String).isEmpty
      (false || (((0 : Nat) == 0) &&
        !((modelsToTry current backups).length - 1 == 0))) current
      (env ((modelsToTry current backups).length - 1)) =
      .ok (.ret (if (false || (((0 : Nat) == 0) &&
              !((modelsToTry current backups).length - 1 == 0))) then
              exhaustedDegradedText
            else exhaustedAllText) current []) := by
    rw [henvK]
    exact attemptBody_exhaust message context sect lang
      ((modelsToTry current backups).get
        ⟨(modelsToTry current backups).length - 1, hK⟩)
      ((modelsToTry current backups).length - 1)
      (false || (((0 : Nat) == 0) &&
        !((modelsToTry current backups).length - 1 == 0))) current 503 b m
      rfl hsf
  have hhead : goE env (buildMessages lang message history) message context
      sect lang
      ((modelsToTry current backups).drop
        ((modelsToTry current backups).length - 1))
      (0 + ((modelsToTry current backups).length - 1))
      (false || (((0 : Nat) == 0) &&
        !((modelsToTry current backups).length - 1 == 0))) current =
      .ok ⟨(if (false || (((0 : Nat) == 0) &&
              !((modelsToTry current backups).length - 1 == 0))) then
              exhaustedDegradedText
            else exhaustedAllText), current, [],
           [⟨(modelsToTry current backups).get
              ⟨(modelsToTry current backups).length - 1, hK⟩,
             buildMessages lang message history⟩]⟩ := by
    rw [Nat.zero_add, hdrop]
    exact goE_cons_ret env (buildMessages lang message history) message
      context sect lang
      ((modelsToTry current backups).get
        ⟨(modelsToTry current backups).length - 1, hK⟩) []
      ((modelsToTry current backups).length - 1)
      (false || (((0 : Nat) == 0) &&
        !((modelsToTry current backups).length - 1 == 0))) current _ _ _ hA
  have hmain := goE_skip env (buildMessages lang message history) message
    context sect lang ((modelsToTry current backups).length - 1)
    (modelsToTry current backups) 0 false current
    ⟨(if (false || (((0 : Nat) == 0) &&
        !((modelsToTry current backups).length - 1 == 0))) then
        exhaustedDegradedText
      else exhaustedAllText), current, [],
     [⟨(modelsToTry current backups).get
        ⟨(modelsToTry current backups).length - 1, hK⟩,
       buildMessages lang message history⟩]⟩
    hK hfail0 hhead
  unfold generateE
  exact hmain

/-- C4 amended: when every candidate answers HTTP 503 (parseable
bodies), `generate` returns an exhaustion text — the "technical
difficulties with all available AI models" one when there are at least
two candidates (the first had already failed), the "All language models
are currently experiencing issues" one when there is exactly one — and
the active-model pointer is unchanged; nothing is logged. -/
theorem c4_exhaustion_amended (env : Nat → Outcome) (logOk : Bool)
    (current : String) (backups : List String) (message : String)
    (history : List ChatMsg) (context : String) (sect : Option String)
    (lang : String)
    (h503 : ∀ j, j < (modelsToTry current backups).length →
      is503Step (env j) = true) :
    ∃ r, generateE env logOk current backups message history context sect lang
        = .ok r ∧
      r.finalModel = current ∧
      r.logs = [] ∧
      r.text = (if 2 ≤ (modelsToTry current backups).length then
                  exhaustedDegradedText
                else exhaustedAllText) := by
  have hlen : 0 < (modelsToTry current backups).length := by
    simp [modelsToTry]
  have hK : (modelsToTry current backups).length - 1 <
      (modelsToTry current backups).length := by omega
  refine ⟨_, generate_exhaust503_run env logOk current backups message history
    context sect lang hK h503, rfl, rfl, ?_⟩
  by_cases h2 : 2 ≤ (modelsToTry current backups).length
  · have hne : ((modelsToTry current backups).length - 1 == 0) = false := by
      rw [beq_eq_false_iff_ne]
      omega
    rw [hne]
    simp [h2]
  · have hne : ((modelsToTry current backups).length - 1 == 0) = true := by
      rw [beq_iff_eq]
      omega
    rw [hne]
    simp [h2]

/-- C4 amended witness: a single configured candidate answering 503
gives the "All language models are currently experiencing issues" text
with the pointer unchanged. -/
theorem c4_exhaustion_amended_witness :
    ∃ r, generateE (fun _ => .resp ⟨503, .badJson, .parsed "x"⟩) true "m1" []
        "Hi" [] "main_chat" none "en" = .ok r ∧
      r.finalModel = "m1" ∧
      r.logs = [] ∧
      r.text = exhaustedAllText := by
  obtain ⟨r, h1, h2, h3, h4⟩ := c4_exhaustion_amended
    (fun _ => .resp ⟨503, .badJson, .parsed "x"⟩) true "m1" [] "Hi" []
    "main_chat" none "en" (by decide)
  refine ⟨r, h1, h2, h3, ?_⟩
  rw [h4]
  rfl

/-- Every request `goE` sends carries the one message list built before
the loop. -/
theorem goE_requests_messages (env : Nat → Outcome) (msgs : List ChatMsg)
    (message context : String) (sect : Option String) (lang : String) :
    ∀ (models : List String) (i : Nat) (flag : Bool) (current : String)
      (r : GenResult),
      goE env msgs message context sect lang models i flag current = .ok r →
      ∀ q ∈ r.requests, q.messages = msgs := by
  intro models
  induction models with
  | nil =>
    intro i flag current r h q hq
    rw [goE] at h
    cases h
    simp at hq
  | cons model rest ih =>
    intro i flag current r h q hq
    cases hA : attemptBody message context sect lang model i rest.isEmpty flag
        current (env i) with
    | ok act =>
      cases act with
      | ret t c logs =>
        rw [goE_cons_ret env msgs message context sect lang model rest i flag
          current t c logs hA] at h
        cases h
        simp only [List.mem_singleton] at hq
        subst hq
        rfl
      | cont =>
        rw [goE_cons_cont env msgs message context sect lang model rest i flag
          current hA] at h
        cases hG : goE env msgs message context sect lang rest (i + 1)
            (flag || i == 0) current with
        | ok r2 =>
          rw [hG] at h
          simp only [contStep] at h
          cases h
          rcases List.mem_cons.mp hq with hq1 | hq2
          · subst hq1; rfl
          · exact ih (i + 1) (flag || i == 0) current r2 hG q hq2
        | error e =>
          rw [hG] at h
          simp [contStep] at h
    | error e =>
      cases e <;>
        first
        | rw [goE_cons_timeout env msgs message context sect lang model rest i
            flag current hA] at h
        | rw [goE_cons_exc env msgs message context sect lang model rest i
            flag current _ (by decide) hA] at h
      all_goals
        split at h
        · cases h
          simp only [List.mem_singleton] at hq
          subst hq
          rfl
        · cases hG : goE env msgs message context sect lang rest (i + 1)
              (flag || i == 0) current with
          | ok r2 =>
            rw [hG] at h
            simp only [contStep] at h
            cases h
            rcases List.mem_cons.mp hq with hq1 | hq2
            · subst hq1; rfl
            · exact ih (i + 1) (flag || i == 0) current r2 hG q hq2
          | error e2 =>
            rw [hG] at h
            simp [contStep] at h

/-- The truncated history never exceeds 10 messages. -/
theorem truncateHistory_length_le (history : List ChatMsg) :
    (truncateHistory history).length ≤ 10 := by
  unfold truncateHistory
  split_ifs with hl
  · simp only [List.length_drop]
    omega
  · omega

/-- The truncated history is a sublist of the full history. -/
theorem truncateHistory_sublist (history : List ChatMsg) :
    List.Sublist (truncateHistory history) history := by
  unfold truncateHistory
  split_ifs with hl
  · exact List.drop_sublist _ _
  · exact List.Sublist.refl _

/-- C5: every outbound request of `generate` consists of the system
message, at most 10 history messages — all taken from the 10 most
recent (`truncateHistory`) — the German-only extra instruction, and the
current (possibly enhanced) user message; history beyond the 10 most
recent messages is never forwarded. -/
theorem c5_history_truncation (env : Nat → Outcome) (logOk : Bool)
    (current : String) (backups : List String) (message : String)
    (history : List ChatMsg) (context : String) (sect : Option String)
    (lang : String) (r : GenResult) (q : Request)
    (hgen : generateE env logOk current backups message history context sect
      lang = .ok r)
    (hq : q ∈ r.requests) :
    ∃ hist2 : List ChatMsg,
      q.messages = ⟨"system", getSystemPrompt lang⟩ ::
        (hist2 ++ (if lang == "de" then [⟨"system", germanInstruction⟩] else [])
          ++ [⟨"user", enhanceMessage message⟩]) ∧
      hist2.length ≤ 10 ∧
      List.Sublist hist2 history ∧
      ∀ m ∈ hist2, m ∈ truncateHistory history := by
  have hmsg : q.messages = buildMessages lang message history :=
    goE_requests_messages env (buildMessages lang message history) message
      context sect lang (modelsToTry current backups) 0 false current r hgen
      q hq
  refine ⟨(truncateHistory history).filter
    (fun m => m.role == "user" || m.role == "assistant"), ?_, ?_, ?_, ?_⟩
  · rw [hmsg]
    rfl
  · exact (List.length_filter_le _ _).trans (truncateHistory_length_le history)
  · exact (List.filter_sublist _).trans (truncateHistory_sublist history)
  · intro m hm
    exact List.mem_of_mem_filter hm

/-- C5 witness: a 12-message history, one terminal candidate; the one
request sent carries exactly the last 10 history messages. -/
theorem c5_history_truncation_witness :
    ∃ hist2 : List ChatMsg,
      (⟨"m1", buildMessages "en" "Hi"
          [⟨"user", "u1"⟩, ⟨"assistant", "a1"⟩, ⟨"user", "u2"⟩,
           ⟨"assistant", "a2"⟩, ⟨"user", "u3"⟩, ⟨"assistant", "a3"⟩,
           ⟨"user", "u4"⟩, ⟨"assistant", "a4"⟩, ⟨"user", "u5"⟩,
           ⟨"assistant", "a5"⟩, ⟨"user", "u6"⟩, ⟨"assistant", "a6"⟩]⟩ :
        Request).messages = ⟨"system", getSystemPrompt "en"⟩ ::
        (hist2 ++ (if ("en" : String) == "de" then
            [⟨"system", germanInstruction⟩] else [])
          ++ [⟨"user", enhanceMessage "Hi"⟩]) ∧
      hist2.length ≤ 10 ∧
      List.Sublist hist2
        [⟨"user", "u1"⟩, ⟨"assistant", "a1"⟩, ⟨"user", "u2"⟩,
         ⟨"assistant", "a2"⟩, ⟨"user", "u3"⟩, ⟨"assistant", "a3"⟩,
         ⟨"user", "u4"⟩, ⟨"assistant", "a4"⟩, ⟨"user", "u5"⟩,
         ⟨"assistant", "a5"⟩, ⟨"user", "u6"⟩, ⟨"assistant", "a6"⟩] ∧
      ∀ m ∈ hist2, m ∈ truncateHistory
        [⟨"user", "u1"⟩, ⟨"assistant", "a1"⟩, ⟨"user", "u2"⟩,
         ⟨"assistant", "a2"⟩, ⟨"user", "u3"⟩, ⟨"assistant", "a3"⟩,
         ⟨"user", "u4"⟩, ⟨"assistant", "a4"⟩, ⟨"user", "u5"⟩,
         ⟨"assistant", "a5"⟩, ⟨"user", "u6"⟩, ⟨"assistant", "a6"⟩] := by
  exact c5_history_truncation (fun _ => .resp ⟨400, .badJson, .parsed "no"⟩)
    true "m1" [] "Hi"
    [⟨"user", "u1"⟩, ⟨"assistant", "a1"⟩, ⟨"user", "u2"⟩,
     ⟨"assistant", "a2"⟩, ⟨"user", "u3"⟩, ⟨"assistant", "a3"⟩,
     ⟨"user", "u4"⟩, ⟨"assistant", "a4"⟩, ⟨"user", "u5"⟩,
     ⟨"assistant", "a5"⟩, ⟨"user", "u6"⟩, ⟨"assistant", "a6"⟩]
    "main_chat" none "en"
    ⟨terminalErrorText, "m1", [],
     [⟨"m1", buildMessages "en" "Hi"
        [⟨"user", "u1"⟩, ⟨"assistant", "a1"⟩, ⟨"user", "u2"⟩,
         ⟨"assistant", "a2"⟩, ⟨"user", "u3"⟩, ⟨"assistant", "a3"⟩,
         ⟨"user", "u4"⟩, ⟨"assistant", "a4"⟩, ⟨"user", "u5"⟩,
         ⟨"assistant", "a5"⟩, ⟨"user", "u6"⟩, ⟨"assistant", "a6"⟩]⟩]⟩
    (⟨"m1", buildMessages "en" "Hi"
        [⟨"user", "u1"⟩, ⟨"assistant", "a1"⟩, ⟨"user", "u2"⟩,
         ⟨"assistant", "a2"⟩, ⟨"user", "u3"⟩, ⟨"assistant", "a3"⟩,
         ⟨"user", "u4"⟩, ⟨"assistant", "a4"⟩, ⟨"user", "u5"⟩,
         ⟨"assistant", "a5"⟩, ⟨"user", "u6"⟩, ⟨"assistant", "a6"⟩]⟩ :
      Request) (by rfl) (List.mem_singleton.mpr rfl)

/-- C6 counterexample: a terminal outcome (HTTP 400, parseable
non-matching body, single candidate) returns the terminal text with
`conversation_logger.log_conversation` never called — the terminal
return paths of lines 186/190/192/203/213/222 perform no append. -/
theorem c6_logging_counterexample :
    ∃ r, generateE (fun _ => .resp ⟨400, .badJson, .parsed "no"⟩) true "m1" []
        "Hi" [] "main_chat" none "en" = .ok r ∧
      r.text = terminalErrorText ∧
      r.logs = [] := by
  exact ⟨⟨terminalErrorText, "m1", [], [⟨"m1", buildMessages "en" "Hi" []⟩]⟩,
    by rfl, rfl, rfl⟩

/-- C6 amended: (1) every successful outcome is handed to the
conversation logger — as the exchange carrying exactly the returned
text — before the text is returned; (2) the boolean the logger returns
is discarded, so a persistence failure cannot change anything the
caller observes; (3) terminal outcomes and (4) exhaustion outcomes are
returned without any logger call. -/
theorem c6_logging_amended :
    (∀ (env : Nat → Outcome) (logOk : Bool) (current : String)
       (backups : List String) (message : String) (history : List ChatMsg)
       (context : String) (sect : Option String) (lang : String) (K : Nat)
       (b : Body200) (be : ErrBody) (s : String)
       (hK : K < (modelsToTry current backups).length),
       (∀ j, j < K → isRetryableStep (env j) = true) →
       env K = .resp ⟨200, b, be⟩ →
       extractContent b = .ok s →
       (s == "") = false →
       ∃ r, generateE env logOk current backups message history context sect
           lang = .ok r ∧
         r.logs = [⟨message, r.text, context, sect,
           (modelsToTry current backups).get ⟨K, hK⟩, lang⟩]) ∧
    (∀ (env : Nat → Outcome) (current : String) (backups : List String)
       (message : String) (history : List ChatMsg) (context : String)
       (sect : Option String) (lang : String) (b1 b2 : Bool),
       generateE env b1 current backups message history context sect lang =
       generateE env b2 current backups message history context sect lang) ∧
    (∀ (env : Nat → Outcome) (logOk : Bool) (current : String)
       (backups : List String) (message : String) (history : List ChatMsg)
       (context : String) (sect : Option String) (lang : String) (K st : Nat)
       (b : Body200) (m : String),
       K < (modelsToTry current backups).length →
       (∀ j, j < K → isRetryableStep (env j) = true) →
       env K = .resp ⟨st, b, .parsed m⟩ →
       (st == 200) = false →
       shouldFallback st m = false →
       ∃ r, generateE env logOk current backups message history context sect
           lang = .ok r ∧
         r.text = terminalErrorText ∧
         r.logs = []) ∧
    (∀ (env : Nat → Outcome) (logOk : Bool) (current : String)
       (backups : List String) (message : String) (history : List ChatMsg)
       (context : String) (sect : Option String) (lang : String),
       (∀ j, j < (modelsToTry current backups).length →
         is503Step (env j) = true) →
       ∃ r, generateE env logOk current backups message history context sect
           lang = .ok r ∧
         r.logs = []) := by
  refine ⟨?_, ?_, ?_, ?_⟩
  · intro env logOk current backups message history context sect lang K b be
      s hK hfail henv hext hs
    exact ⟨_, generate_success_run env logOk current backups message history
      context sect lang K b be s hK hfail henv hext hs, rfl⟩
  · intro env current backups message history context sect lang b1 b2
    rfl
  · intro env logOk current backups message history context sect lang K st b
      m hK hfail henv hst hterm
    exact ⟨_, generate_terminal_run env logOk current backups message history
      context sect lang K st b m hK hfail henv hst hterm, rfl, rfl⟩
  · intro env logOk current backups message history context sect lang h503
    have hlen : 0 < (modelsToTry current backups).length := by
      simp [modelsToTry]
    exact ⟨_, generate_exhaust503_run env logOk current backups message
      history context sect lang (by omega) h503, rfl⟩

/-- C6 amended witness: a 200 answer is logged with the returned text;
flipping the logger's boolean changes nothing; a 400 terminal answer
and an all-503 exhaustion log nothing. -/
theorem c6_logging_amended_witness :
    (∃ r, generateE (fun _ => .resp ⟨200,
          .ok ⟨.ok "Hello", false, none, none, none⟩, .parsed ""⟩) true "m1"
        [] "Hi" [] "main_chat" none "en" = .ok r ∧
      r.logs = [⟨"Hi", r.text, "main_chat", none, "m1", "en"⟩]) ∧
    (generateE (fun _ => .resp ⟨400, .badJson, .parsed "no"⟩) true "m1" []
        "Hi" [] "main_chat" none "en" =
      generateE (fun _ => .resp ⟨400, .badJson, .parsed "no"⟩) false "m1" []
        "Hi" [] "main_chat" none "en") ∧
    (∃ r, generateE (fun _ => .resp ⟨400, .badJson, .parsed "no"⟩) true "m1"
        [] "Hi" [] "main_chat" none "en" = .ok r ∧
      r.text = terminalErrorText ∧ r.logs = []) ∧
    (∃ r, generateE (fun _ => .resp ⟨503, .badJson, .parsed ""⟩) true "m1"
        ["m2"] "Hi" [] "main_chat" none "en" = .ok r ∧
      r.logs = []) := by
  refine ⟨?_, ?_, ?_, ?_⟩
  · obtain ⟨r, h1, h2⟩ := c6_logging_amended.1
      (fun _ => .resp ⟨200, .ok ⟨.ok "Hello", false, none, none, none⟩,
        .parsed ""⟩) true "m1" [] "Hi" [] "main_chat" none "en" 0
      (.ok ⟨.ok "Hello", false, none, none, none⟩) (.parsed "") "Hello"
      (by decide) (by decide) rfl (by rfl) rfl
    exact ⟨r, h1, by rw [h2]; rfl⟩
  · exact c6_logging_amended.2.1
      (fun _ => .resp ⟨400, .badJson, .parsed "no"⟩) "m1" [] "Hi" []
      "main_chat" none "en" true false
  · exact c6_logging_amended.2.2.1
      (fun _ => .resp ⟨400, .badJson, .parsed "no"⟩) true "m1" [] "Hi" []
      "main_chat" none "en" 0 400 .badJson "no" (by decide) (by decide) rfl
      (by decide) (by decide)
  · exact c6_logging_amended.2.2.2
      (fun _ => .resp ⟨503, .badJson, .parsed ""⟩) true "m1" ["m2"] "Hi" []
      "main_chat" none "en" (by decide)

/-- The loop never lets an exception escape: the handlers at the end of
each iteration cover every exception the body can raise. -/
theorem goE_isOk (env : Nat → Outcome) (msgs : List ChatMsg)
    (message context : String) (sect : Option String) (lang : String) :
    ∀ (models : List String) (i : Nat) (flag : Bool) (current : String),
      ∃ r, goE env msgs message context sect lang models i flag current =
        .ok r := by
  intro models
  induction models with
  | nil =>
    intro i flag current
    exact ⟨_, rfl⟩
  | cons model rest ih =>
    intro i flag current
    cases hA : attemptBody message context sect lang model i rest.isEmpty flag
        current (env i) with
    | ok act =>
      cases act with
      | ret t c logs =>
        exact ⟨_, goE_cons_ret env msgs message context sect lang model rest i
          flag current t c logs hA⟩
      | cont =>
        obtain ⟨r2, hr2⟩ := ih (i + 1) (flag || i == 0) current
        exact ⟨_, by
          rw [goE_cons_cont env msgs message context sect lang model rest i
            flag current hA, hr2]
          rfl⟩
    | error e =>
      cases e with
      | timeout =>
        cases hE : rest.isEmpty with
        | false =>
          obtain ⟨r2, hr2⟩ := ih (i + 1) (flag || i == 0) current
          exact ⟨_, by
            rw [goE_cons_timeout env msgs message context sect lang model rest
              i flag current hA, hE, hr2]
            rfl⟩
        | true =>
          exact ⟨_, by
            rw [goE_cons_timeout env msgs message context sect lang model rest
              i flag current hA, hE]
            rfl⟩
      | valueError =>
        cases hE : rest.isEmpty with
        | false =>
          obtain ⟨r2, hr2⟩ := ih (i + 1) (flag || i == 0) current
          exact ⟨_, by
            rw [goE_cons_exc env msgs message context sect lang model rest i
              flag current _ (by decide) hA, hE, hr2]
            rfl⟩
        | true =>
          exact ⟨_, by
            rw [goE_cons_exc env msgs message context sect lang model rest i
              flag current _ (by decide) hA, hE]
            rfl⟩
      | keyError =>
        cases hE : rest.isEmpty with
        | false =>
          obtain ⟨r2, hr2⟩ := ih (i + 1) (flag || i == 0) current
          exact ⟨_, by
            rw [goE_cons_exc env msgs message context sect lang model rest i
              flag current _ (by decide) hA, hE, hr2]
            rfl⟩
        | true =>
          exact ⟨_, by
            rw [goE_cons_exc env msgs message context sect lang model rest i
              flag current _ (by decide) hA, hE]
            rfl⟩
      | attributeError =>
        cases hE : rest.isEmpty with
        | false =>
          obtain ⟨r2, hr2⟩ := ih (i + 1) (flag || i == 0) current
          exact ⟨_, by
            rw [goE_cons_exc env msgs message context sect lang model rest i
              flag current _ (by decide) hA, hE, hr2]
            rfl⟩
        | true =>
          exact ⟨_, by
            rw [goE_cons_exc env msgs message context sect lang model rest i
              flag current _ (by decide) hA, hE]
            rfl⟩
      | generic =>
        cases hE : rest.isEmpty with
        | false =>
          obtain ⟨r2, hr2⟩ := ih (i + 1) (flag || i == 0) current
          exact ⟨_, by
            rw [goE_cons_exc env msgs message context sect lang model rest i
              flag current _ (by decide) hA, hE, hr2]
            rfl⟩
        | true =>
          exact ⟨_, by
            rw [goE_cons_exc env msgs message context sect lang model rest i
              flag current _ (by decide) hA, hE]
            rfl⟩

/-- C9: `generate` never raises — for every provider behaviour
(responses of any status and shape, unparseable bodies, timeouts,
unexpected exceptions) it resolves to a string-carrying result — and
every store operation of both MongoDB handlers resolves to a boolean
result instead of raising, for every connection state and database
failure. -/
theorem c9_no_exception_escapes :
    (∀ (env : Nat → Outcome) (logOk : Bool) (current : String)
       (backups : List String) (message : String) (history : List ChatMsg)
       (context : String) (sect : Option String) (lang : String),
       ∃ r, generateE env logOk current backups message history context sect
         lang = .ok r) ∧
    (∀ (connected : Bool) (dbFail : Option PyExc) (db : List ConvDoc)
       (uid : String) (ex : Exchange) (now : Nat),
       ∃ ok db2, logConversationE connected dbFail db uid ex now =
         .ok (ok, db2)) ∧
    (∀ (connected : Bool) (dbFail : Option PyExc)
       (db : List (List (String × Val))) (uid : String)
       (data : List (String × Val)) (now : Nat),
       ∃ ok db2 data2, saveFormSubmissionE connected dbFail db uid data now =
         .ok (ok, db2, data2)) ∧
    (∀ (connected : Bool) (dbFail : Option PyExc)
       (db : List (List (String × Val))) (sid : String)
       (data : List (String × Val)) (now : Nat),
       ∃ ok db2 data2, oldSaveFormSubmissionE connected dbFail db sid data now
         = .ok (ok, db2, data2)) := by
  refine ⟨?_, ?_, ?_, ?_⟩
  · intro env logOk current backups message history context sect lang
    exact goE_isOk env (buildMessages lang message history) message context
      sect lang (modelsToTry current backups) 0 false current
  · intro connected dbFail db uid ex now
    unfold logConversationE
    split_ifs <;> cases dbFail <;> exact ⟨_, _, rfl⟩
  · intro connected dbFail db uid data now
    unfold saveFormSubmissionE
    split_ifs <;> cases dbFail <;> exact ⟨_, _, _, rfl⟩
  · intro connected dbFail db sid data now
    unfold oldSaveFormSubmissionE
    split_ifs <;> cases dbFail <;> exact ⟨_, _, _, rfl⟩

/-- `update_one` on a collection holding at most one document for `uid`
(the unique index): the matching documents afterwards are exactly the
old ones with `f` applied, non-matching documents are untouched, and
nothing new appears. -/
theorem updateFirstConv_spec (uid : String) (f : ConvDoc → ConvDoc)
    (hf : ∀ d, (f d).userId = d.userId) :
    ∀ db : List ConvDoc, (docsFor db uid).length ≤ 1 →
      docsFor (updateFirstConv db uid f) uid = (docsFor db uid).map f ∧
      (∀ d ∈ updateFirstConv db uid f, d.userId ≠ uid → d ∈ db) ∧
      (∀ d ∈ updateFirstConv db uid f, d ∈ db ∨ ∃ d0, d0 ∈ db ∧ d = f d0) := by
  intro db
  induction db with
  | nil =>
    intro _
    refine ⟨rfl, ?_, ?_⟩ <;> intro d hd <;> simp [updateFirstConv] at hd
  | cons d t iht =>
    intro hlen
    by_cases hd : (d.userId == uid) = true
    · have h1 : updateFirstConv (d :: t) uid f = f d :: t := by
        simp [updateFirstConv, hd]
      have h2 : docsFor (d :: t) uid = d :: docsFor t uid := by
        simp [docsFor, List.filter_cons, hd]
      have h3 : docsFor t uid = [] := by
        rw [h2] at hlen
        simp only [List.length_cons] at hlen
        exact List.length_eq_zero.mp (by omega)
      have hfd : ((f d).userId == uid) = true := by rw [hf]; exact hd
      refine ⟨?_, ?_, ?_⟩
      · rw [h1, h2, h3]
        show (f d :: t).filter (fun d2 => d2.userId == uid) = [f d]
        simp only [List.filter_cons, hfd, if_true]
        have : t.filter (fun d2 => d2.userId == uid) = [] := h3
        rw [this]
      · intro d2 hd2 hne
        rw [h1] at hd2
        rcases List.mem_cons.mp hd2 with h | h
        · subst h
          exact absurd (beq_iff_eq.mp hfd) hne
        · exact List.mem_cons_of_mem d h
      · intro d2 hd2
        rw [h1] at hd2
        rcases List.mem_cons.mp hd2 with h | h
        · exact Or.inr ⟨d, List.mem_cons_self d t, h⟩
        · exact Or.inl (List.mem_cons_of_mem d h)
    · have hd2 : (d.userId == uid) = false := by
        simpa using hd
      have h1 : updateFirstConv (d :: t) uid f = d :: updateFirstConv t uid f := by
        simp [updateFirstConv, hd2]
      have h2 : docsFor (d :: t) uid = docsFor t uid := by
        simp [docsFor, List.filter_cons, hd2]
      obtain ⟨ih1, ih2, ih3⟩ := iht (by rw [h2] at hlen; exact hlen)
      refine ⟨?_, ?_, ?_⟩
      · rw [h1, h2]
        show (d :: updateFirstConv t uid f).filter (fun d2 => d2.userId == uid)
          = _
        simp only [List.filter_cons, hd2, if_false]
        exact ih1
      · intro d3 hd3 hne
        rw [h1] at hd3
        rcases List.mem_cons.mp hd3 with h | h
        · subst h
          exact List.mem_cons_self d3 t
        · exact List.mem_cons_of_mem d (ih2 d3 h hne)
      · intro d3 hd3
        rw [h1] at hd3
        rcases List.mem_cons.mp hd3 with h | h
        · subst h
          exact Or.inl (List.mem_cons_self d3 t)
        · rcases ih3 d3 h with h4 | ⟨d0, hd0, he⟩
          · exact Or.inl (List.mem_cons_of_mem d h4)
          · exact Or.inr ⟨d0, List.mem_cons_of_mem d hd0, he⟩

/-- C7: `log_conversation`'s single upsert, run against any store
satisfying the unique-index invariant (at most one document per
`user_id`) and the counter invariant: a first append creates exactly
one document with history `[exchange]` and counter 1; a later append
appends the exchange, increments the counter and sets `last_updated`,
leaving prior exchanges unchanged and in order; afterwards exactly one
document carries the id, `total_exchanges = length history` holds
everywhere, and documents of other participants are untouched. -/
theorem c7_conversation_upsert (db : List ConvDoc) (uid : String)
    (ex : Exchange) (now : Nat)
    (huniq : (docsFor db uid).length ≤ 1)
    (hinv : ∀ d ∈ db, d.totalExchanges = d.history.length) :
    (docsFor db uid = [] →
      docsFor (convUpsert db uid ex now) uid =
        [⟨uid, now, now, 1, [ex], localIp⟩]) ∧
    (∀ d, docsFor db uid = [d] →
      docsFor (convUpsert db uid ex now) uid =
        [{ d with history := d.history ++ [ex],
                  totalExchanges := d.totalExchanges + 1,
                  lastUpdated := now }]) ∧
    (docsFor (convUpsert db uid ex now) uid).length = 1 ∧
    (∀ d ∈ convUpsert db uid ex now, d.totalExchanges = d.history.length) ∧
    (∀ d ∈ convUpsert db uid ex now, d.userId ≠ uid → d ∈ db) := by
  by_cases hany : db.any (fun d => d.userId == uid) = true
  · -- a document exists: the atomic push/inc/set update
    have hne : docsFor db uid ≠ [] := by
      simp only [List.any_eq_true] at hany
      obtain ⟨d, hd, hp⟩ := hany
      intro hnil
      have : d ∈ docsFor db uid := List.mem_filter.mpr ⟨hd, hp⟩
      rw [hnil] at this
      simp at this
    have hup : convUpsert db uid ex now = updateFirstConv db uid
        (fun d => { d with history := d.history ++ [ex],
                           totalExchanges := d.totalExchanges + 1,
                           lastUpdated := now }) := by
      simp [convUpsert, hany]
    obtain ⟨hs1, hs2, hs3⟩ := updateFirstConv_spec uid
      (fun d => { d with history := d.history ++ [ex],
                         totalExchanges := d.totalExchanges + 1,
                         lastUpdated := now }) (fun _ => rfl) db huniq
    refine ⟨?_, ?_, ?_, ?_, ?_⟩
    · intro h
      exact absurd h hne
    · intro d hd
      rw [hup, hs1, hd]
      rfl
    · rw [hup, hs1]
      cases hdoc : docsFor db uid with
      | nil => exact absurd hdoc hne
      | cons a l =>
        cases l with
        | nil => rfl
        | cons b l2 =>
          rw [hdoc] at huniq
          simp at huniq
    · intro d hd
      rw [hup] at hd
      rcases hs3 d hd with h | ⟨d0, hd0, he⟩
      · exact hinv d h
      · subst he
        simp [hinv d0 hd0]
    · intro d hd hne2
      rw [hup] at hd
      exact hs2 d hd hne2
  · -- no document: the upsert inserts the fresh one
    have hany2 : db.any (fun d => d.userId == uid) = false := by
      simpa using hany
    have hnil : docsFor db uid = [] := by
      simp only [List.any_eq_false] at hany2
      exact List.filter_eq_nil.mpr hany2
    have hup : convUpsert db uid ex now =
        db ++ [⟨uid, now, now, 1, [ex], localIp⟩] := by
      simp [convUpsert, hany2]
    have hfd : docsFor (db ++ [⟨uid, now, now, 1, [ex], localIp⟩]) uid =
        [⟨uid, now, now, 1, [ex], localIp⟩] := by
      unfold docsFor
      rw [List.filter_append]
      have h1 : db.filter (fun d => d.userId == uid) = [] := hnil
      rw [h1]
      simp
    refine ⟨?_, ?_, ?_, ?_, ?_⟩
    · intro _
      rw [hup]
      exact hfd
    · intro d hd
      rw [hnil] at hd
      cases hd
    · rw [hup, hfd]
      rfl
    · intro d hd
      rw [hup] at hd
      rcases List.mem_append.mp hd with h | h
      · exact hinv d h
      · simp only [List.mem_singleton] at h
        subst h
        rfl
    · intro d hd hne2
      rw [hup] at hd
      rcases List.mem_append.mp hd with h | h
      · exact h
      · simp only [List.mem_singleton] at h
        subst h
        exact absurd rfl hne2

/-- C7 witness: two appends for a fresh participant, then one for
another participant — record counts, history contents and counters all
as claimed. -/
theorem c7_conversation_upsert_witness :
    (docsFor ([] : List ConvDoc) "p1" = [] →
      docsFor (convUpsert [] "p1" ⟨1, "u", "b", some "m", "c", none, none⟩ 1)
        "p1" = [⟨"p1", 1, 1, 1, [⟨1, "u", "b", some "m", "c", none, none⟩],
                localIp⟩]) ∧
    (∀ d, docsFor ([] : List ConvDoc) "p1" = [d] →
      docsFor (convUpsert [] "p1" ⟨1, "u", "b", some "m", "c", none, none⟩ 1)
        "p1" = [{ d with
                  history := d.history ++ [⟨1, "u", "b", some "m", "c", none, none⟩],
                  totalExchanges := d.totalExchanges + 1,
                  lastUpdated := 1 }]) ∧
    (docsFor (convUpsert [] "p1" ⟨1, "u", "b", some "m", "c", none, none⟩ 1)
      "p1").length = 1 ∧
    (∀ d ∈ convUpsert [] "p1" ⟨1, "u", "b", some "m", "c", none, none⟩ 1,
      d.totalExchanges = d.history.length) ∧
    (∀ d ∈ convUpsert [] "p1" ⟨1, "u", "b", some "m", "c", none, none⟩ 1,
      d.userId ≠ "p1" → d ∈ ([] : List ConvDoc)) :=
  c7_conversation_upsert [] "p1" ⟨1, "u", "b", some "m", "c", none, none⟩ 1
    (by decide) (by decide)

/-! Association-list facts for the form documents. -/

/-- Setting a key makes it look up to the new value. -/
theorem lookup_setVal_self (d : List (String × Val)) (k : String) (v : Val) :
    (setVal d k v).lookup k = some v := by
  induction d with
  | nil => simp [setVal]
  | cons p t ih =>
    by_cases h : (p.1 == k) = true
    · simp [setVal, h, List.lookup, beq_iff_eq.mp h]
    · have h2 : (p.1 == k) = false := by simpa using h
      have h3 : (k == p.1) = false := by
        rw [beq_eq_false_iff_ne] at h2 ⊢
        exact fun he => h2 he.symm
      simp [setVal, h2, List.lookup, h3, ih]

/-- Setting a key leaves every other key's lookup unchanged. -/
theorem lookup_setVal_ne (d : List (String × Val)) (k k2 : String) (v : Val)
    (h : (k2 == k) = false) :
    (setVal d k v).lookup k2 = d.lookup k2 := by
  induction d with
  | nil => simp [setVal, List.lookup, h]
  | cons p t ih =>
    by_cases hp : (p.1 == k) = true
    · have hk2 : (k2 == p.1) = false := by
        rw [beq_eq_false_iff_ne] at h ⊢
        rw [beq_iff_eq] at hp
        rw [hp]
        exact h
      simp [setVal, hp, List.lookup, h, hk2]
    · have hp2 : (p.1 == k) = false := by simpa using hp
      by_cases hq : (k2 == p.1) = true
      · simp [setVal, hp2, List.lookup, hq]
      · have hq2 : (k2 == p.1) = false := by simpa using hq
        simp [setVal, hp2, List.lookup, hq2, ih]

/-- A popped key is gone. -/
theorem lookup_delKey_self (d : List (String × Val)) (k : String) :
    (delKey d k).lookup k = none := by
  induction d with
  | nil => rfl
  | cons p t ih =>
    by_cases hp : (p.1 == k) = true
    · have hpe : p.1 = k := beq_iff_eq.mp hp
      have hpn : (p.1 != k) = false := by simp [hpe]
      simp [delKey, List.filter_cons, hpn] at ih ⊢
      exact ih
    · have hp2 : (p.1 == k) = false := by simpa using hp
      have hpne : p.1 ≠ k := beq_eq_false_iff_ne.mp hp2
      have hpn : (p.1 != k) = true := by simp [hpne]
      have hk : (k == p.1) = false := by
        rw [beq_eq_false_iff_ne]
        exact fun he => hpne he.symm
      simp [delKey, List.filter_cons, hpn, List.lookup, hk] at ih ⊢
      exact ih

/-- Popping a key leaves every other key's lookup unchanged. -/
theorem lookup_delKey_ne (d : List (String × Val)) (k k2 : String)
    (h : (k2 == k) = false) :
    (delKey d k).lookup k2 = d.lookup k2 := by
  induction d with
  | nil => rfl
  | cons p t ih =>
    by_cases hp : (p.1 == k) = true
    · have hpe : p.1 = k := beq_iff_eq.mp hp
      have hpn : (p.1 != k) = false := by simp [hpe]
      have hk2 : (k2 == p.1) = false := by
        rw [beq_eq_false_iff_ne] at h ⊢
        rw [hpe]
        exact h
      simp [delKey, List.filter_cons, hpn, List.lookup, hk2] at ih ⊢
      exact ih
    · have hp2 : (p.1 == k) = false := by simpa using hp
      have hpne : p.1 ≠ k := beq_eq_false_iff_ne.mp hp2
      have hpn : (p.1 != k) = true := by simp [hpne]
      by_cases hq : (k2 == p.1) = true
      · simp [delKey, List.filter_cons, hpn, List.lookup, hq]
      · have hq2 : (k2 == p.1) = false := by simpa using hq
        simp [delKey, List.filter_cons, hpn, List.lookup, hq2] at ih ⊢
        exact ih

/-- `$set`ing a payload that does not touch `k` leaves `k` unchanged. -/
theorem lookup_setAll_not_mem (upd : List (String × Val)) :
    ∀ (d : List (String × Val)) (k : String), k ∉ keysOf upd →
      (setAll d upd).lookup k = d.lookup k := by
  induction upd with
  | nil => intro d k _; rfl
  | cons p t ih =>
    intro d k hk
    have h1 : k ∉ keysOf t := by
      intro hmem
      exact hk (List.mem_cons_of_mem _ hmem)
    have h2 : (k == p.1) = false := by
      rw [beq_eq_false_iff_ne]
      intro he
      exact hk (by rw [he]; exact List.mem_cons_self _ _)
    show (setAll (setVal d p.1 p.2) t).lookup k = d.lookup k
    rw [ih (setVal d p.1 p.2) k h1, lookup_setVal_ne d p.1 k p.2 h2]

/-- With duplicate-free payload keys, `$set` makes each payload pair
look up to its value. -/
theorem lookup_setAll_mem (upd : List (String × Val)) :
    ∀ (d : List (String × Val)) (k : String) (v : Val), (k, v) ∈ upd →
      (keysOf upd).Nodup →
      (setAll d upd).lookup k = some v := by
  induction upd with
  | nil => intro d k v h _; cases h
  | cons p t ih =>
    intro d k v hmem hnd
    rcases List.mem_cons.mp hmem with h | h
    · subst h
      have hk : k ∉ keysOf t := by
        have := List.nodup_cons.mp hnd
        exact this.1
      show (setAll (setVal d k v) t).lookup k = some v
      rw [lookup_setAll_not_mem t (setVal d k v) k hk, lookup_setVal_self]
    · have hnd2 : (keysOf t).Nodup := (List.nodup_cons.mp hnd).2
      exact ih (setVal d p.1 p.2) k v h hnd2

/-- Membership in the keys of a document. -/
theorem mem_keysOf_iff (d : List (String × Val)) (k : String) :
    k ∈ keysOf d ↔ ∃ v, (k, v) ∈ d := by
  unfold keysOf
  constructor
  · intro h
    obtain ⟨⟨k1, v1⟩, hp, he⟩ := List.mem_map.mp h
    subst he
    exact ⟨v1, hp⟩
  · rintro ⟨v, hv⟩
    exact List.mem_map.mpr ⟨(k, v), hv, rfl⟩

/-- A lookup hit is a membership. -/
theorem lookup_mem (d : List (String × Val)) (k : String) (v : Val)
    (h : d.lookup k = some v) : (k, v) ∈ d := by
  induction d with
  | nil => cases h
  | cons p t ih =>
    by_cases hq : (k == p.1) = true
    · simp only [List.lookup, hq] at h
      cases h
      have := beq_iff_eq.mp hq
      subst this
      exact List.mem_cons_self _ _
    · have hq2 : (k == p.1) = false := by simpa using hq
      simp only [List.lookup, hq2] at h
      exact List.mem_cons_of_mem _ (ih h)

/-- Popping an absent key is a no-op. -/
theorem delKey_not_mem (d : List (String × Val)) (k : String)
    (h : k ∉ keysOf d) : delKey d k = d := by
  unfold delKey
  apply List.filter_eq_self.mpr
  intro p hp
  have : p.1 ≠ k := by
    intro he
    exact h ((mem_keysOf_iff d k).mpr ⟨p.2, by rw [← he]; exact hp⟩)
  simp [this]

/-- Setting an absent key appends the binding. -/
theorem setVal_not_mem (d : List (String × Val)) (k : String) (v : Val)
    (h : k ∉ keysOf d) : setVal d k v = d ++ [(k, v)] := by
  induction d with
  | nil => rfl
  | cons p t ih =>
    have h1 : p.1 ≠ k := by
      intro he
      exact h (by rw [← he]; exact List.mem_cons_self _ _)
    have h2 : k ∉ keysOf t := by
      intro hmem
      exact h (List.mem_cons_of_mem _ hmem)
    have h3 : (p.1 == k) = false := by
      rw [beq_eq_false_iff_ne]
      exact h1
    show (if p.1 == k then _ else _) = _
    rw [h3]
    simp only [Bool.false_eq_true, if_false, List.cons_append, List.cons.injEq,
      true_and]
    exact ih h2

/-- The `$set` payload of a clean submission (caller fields avoiding the
handler's special keys) is the fields plus the two per-write stamps. -/
theorem newFormSetPayload_of_clean (fs : List (String × Val)) (t : Nat)
    (h_uid : "user_id" ∉ keysOf fs) (h_sid : "session_id" ∉ keysOf fs)
    (h_st : "submission_timestamp" ∉ keysOf fs)
    (h_lu : "last_updated" ∉ keysOf fs) :
    newFormSetPayload fs t =
      fs ++ [("submission_timestamp", .time t), ("last_updated", .time t)] := by
  unfold newFormSetPayload newFormMutatedData
  rw [delKey_not_mem fs "user_id" h_uid, delKey_not_mem fs "session_id" h_sid,
    setVal_not_mem fs "submission_timestamp" (.time t) h_st, setVal_not_mem]
  · simp
  · intro hmem
    unfold keysOf at hmem
    rw [List.map_append] at hmem
    rcases List.mem_append.mp hmem with h | h
    · exact h_lu h
    · simp at h

/-- The mutated caller dictionary of a clean submission. -/
theorem newFormMutatedData_of_clean (fs : List (String × Val)) (t : Nat)
    (h_uid : "user_id" ∉ keysOf fs) (h_sid : "session_id" ∉ keysOf fs)
    (h_st : "submission_timestamp" ∉ keysOf fs) :
    newFormMutatedData fs t = fs ++ [("submission_timestamp", .time t)] := by
  unfold newFormMutatedData
  rw [delKey_not_mem fs "user_id" h_uid, delKey_not_mem fs "session_id" h_sid,
    setVal_not_mem fs "submission_timestamp" (.time t) h_st]

/-- `update_one` on the forms collection holding at most one document
for `uid`, with an update preserving the `user_id` field. -/
theorem updateFirstForm_spec (uid : String)
    (f : List (String × Val) → List (String × Val))
    (hf : ∀ d, (f d).lookup "user_id" = d.lookup "user_id") :
    ∀ db, (formDocsFor db uid).length ≤ 1 →
      formDocsFor (updateFirstForm "user_id" db uid f) uid =
        (formDocsFor db uid).map f ∧
      (∀ d ∈ updateFirstForm "user_id" db uid f,
        d.lookup "user_id" ≠ some (.str uid) → d ∈ db) := by
  intro db
  induction db with
  | nil =>
    intro _
    refine ⟨rfl, ?_⟩
    intro d hd
    simp [updateFirstForm] at hd
  | cons d t iht =>
    intro hlen
    by_cases hd : (d.lookup "user_id" == some (Val.str uid)) = true
    · have h1 : updateFirstForm "user_id" (d :: t) uid f = f d :: t := by
        simp [updateFirstForm, hd]
      have h2 : formDocsFor (d :: t) uid = d :: formDocsFor t uid := by
        simp [formDocsFor, List.filter_cons, hd]
      have h3 : formDocsFor t uid = [] := by
        rw [h2] at hlen
        simp only [List.length_cons] at hlen
        exact List.length_eq_zero.mp (by omega)
      have hfd : ((f d).lookup "user_id" == some (Val.str uid)) = true := by
        rw [hf]
        exact hd
      refine ⟨?_, ?_⟩
      · rw [h1, h2, h3]
        show (f d :: t).filter
          (fun d2 => d2.lookup "user_id" == some (Val.str uid)) = [f d]
        simp only [List.filter_cons, hfd, if_true]
        have h4 : t.filter
            (fun d2 => d2.lookup "user_id" == some (Val.str uid)) = [] := h3
        rw [h4]
      · intro d2 hd2 hne
        rw [h1] at hd2
        rcases List.mem_cons.mp hd2 with h | h
        · subst h
          exact absurd (beq_iff_eq.mp hfd) hne
        · exact List.mem_cons_of_mem d h
    · have hd2 : (d.lookup "user_id" == some (Val.str uid)) = false := by
        simpa using hd
      have h1 : updateFirstForm "user_id" (d :: t) uid f =
          d :: updateFirstForm "user_id" t uid f := by
        simp [updateFirstForm, hd2]
      have h2 : formDocsFor (d :: t) uid = formDocsFor t uid := by
        simp [formDocsFor, List.filter_cons, hd2]
      obtain ⟨ih1, ih2⟩ := iht (by rw [h2] at hlen; exact hlen)
      refine ⟨?_, ?_⟩
      · rw [h1, h2]
        show (d :: updateFirstForm "user_id" t uid f).filter
          (fun d2 => d2.lookup "user_id" == some (Val.str uid)) = _
        simp only [List.filter_cons, hd2, if_false]
        exact ih1
      · intro d3 hd3 hne
        rw [h1] at hd3
        rcases List.mem_cons.mp hd3 with h | h
        · subst h
          exact List.mem_cons_self d3 t
        · exact List.mem_cons_of_mem d (ih2 d3 h hne)

/-- C8 amended: two clean submissions with disjoint field sets for a
fresh participant merge into a single document holding both field sets;
`created_at` is set on the insert and preserved by the second write;
each write touches only its own fields plus `last_updated` **and
`submission_timestamp`** (and, on the insert, `user_id`, `created_at`,
`user_ip`); the participant keys `user_id`/`session_id` never reach the
written payload; other participants' documents are untouched. -/
theorem c8_form_merge_amended (db : List (List (String × Val)))
    (uid : String) (fs1 fs2 : List (String × Val)) (t1 t2 : Nat)
    (hzero : formDocsFor db uid = [])
    (huid : (uid == "") = false)
    (hclean1 : ∀ k ∈ keysOf fs1, k ∉ specialFormKeys)
    (hclean2 : ∀ k ∈ keysOf fs2, k ∉ specialFormKeys)
    (hdisj : ∀ k ∈ keysOf fs1, k ∉ keysOf fs2)
    (hnd1 : (keysOf fs1).Nodup) (hnd2 : (keysOf fs2).Nodup) :
    saveFormSubmissionE true none db uid fs1 t1 =
      .ok (true, formUpsert db uid (newFormSetPayload fs1 t1) t1,
           newFormMutatedData fs1 t1) ∧
    saveFormSubmissionE true none
        (formUpsert db uid (newFormSetPayload fs1 t1) t1) uid fs2 t2 =
      .ok (true, formUpsert (formUpsert db uid (newFormSetPayload fs1 t1) t1)
             uid (newFormSetPayload fs2 t2) t2,
           newFormMutatedData fs2 t2) ∧
    (∀ data now2, (newFormSetPayload data now2).lookup "user_id" = none ∧
      (newFormSetPayload data now2).lookup "session_id" = none) ∧
    ∃ d2, formDocsFor (formUpsert (formUpsert db uid
        (newFormSetPayload fs1 t1) t1) uid (newFormSetPayload fs2 t2) t2) uid
        = [d2] ∧
      (∀ k v, (k, v) ∈ fs1 → d2.lookup k = some v) ∧
      (∀ k v, (k, v) ∈ fs2 → d2.lookup k = some v) ∧
      d2.lookup "user_id" = some (.str uid) ∧
      d2.lookup "created_at" = some (.time t1) ∧
      d2.lookup "last_updated" = some (.time t2) ∧
      d2.lookup "submission_timestamp" = some (.time t2) ∧
      (∀ d1, formDocsFor (formUpsert db uid (newFormSetPayload fs1 t1) t1) uid
          = [d1] →
        ∀ k, k ∉ keysOf fs2 → k ≠ "last_updated" →
          k ≠ "submission_timestamp" → d2.lookup k = d1.lookup k) ∧
      (∀ d ∈ formUpsert (formUpsert db uid (newFormSetPayload fs1 t1) t1) uid
          (newFormSetPayload fs2 t2) t2,
        d.lookup "user_id" ≠ some (.str uid) → d ∈ db) := by
  -- keys of the caller fields avoid every special key
  have h1u : "user_id" ∉ keysOf fs1 :=
    fun h => (hclean1 "user_id" h) (by decide)
  have h1s : "session_id" ∉ keysOf fs1 :=
    fun h => (hclean1 "session_id" h) (by decide)
  have h1st : "submission_timestamp" ∉ keysOf fs1 :=
    fun h => (hclean1 "submission_timestamp" h) (by decide)
  have h1lu : "last_updated" ∉ keysOf fs1 :=
    fun h => (hclean1 "last_updated" h) (by decide)
  have h1ca : "created_at" ∉ keysOf fs1 :=
    fun h => (hclean1 "created_at" h) (by decide)
  have h2u : "user_id" ∉ keysOf fs2 :=
    fun h => (hclean2 "user_id" h) (by decide)
  have h2s : "session_id" ∉ keysOf fs2 :=
    fun h => (hclean2 "session_id" h) (by decide)
  have h2st : "submission_timestamp" ∉ keysOf fs2 :=
    fun h => (hclean2 "submission_timestamp" h) (by decide)
  have h2lu : "last_updated" ∉ keysOf fs2 :=
    fun h => (hclean2 "last_updated" h) (by decide)
  have h2ca : "created_at" ∉ keysOf fs2 :=
    fun h => (hclean2 "created_at" h) (by decide)
  -- the two payloads in explicit form
  have hp1 : newFormSetPayload fs1 t1 =
      fs1 ++ [("submission_timestamp", .time t1), ("last_updated", .time t1)] :=
    newFormSetPayload_of_clean fs1 t1 h1u h1s h1st h1lu
  have hp2 : newFormSetPayload fs2 t2 =
      fs2 ++ [("submission_timestamp", .time t2), ("last_updated", .time t2)] :=
    newFormSetPayload_of_clean fs2 t2 h2u h2s h2st h2lu
  have hkeys1 : keysOf (newFormSetPayload fs1 t1) =
      keysOf fs1 ++ ["submission_timestamp", "last_updated"] := by
    rw [hp1]
    unfold keysOf
    rw [List.map_append]
    rfl
  have hkeys2 : keysOf (newFormSetPayload fs2 t2) =
      keysOf fs2 ++ ["submission_timestamp", "last_updated"] := by
    rw [hp2]
    unfold keysOf
    rw [List.map_append]
    rfl
  have hndp1 : (keysOf (newFormSetPayload fs1 t1)).Nodup := by
    rw [hkeys1]
    refine List.Nodup.append hnd1 (by decide) ?_
    intro k hk1 hk2
    simp only [List.mem_cons, List.not_mem_nil, or_false] at hk2
    rcases hk2 with h | h
    · subst h; exact h1st hk1
    · subst h; exact h1lu hk1
  have hndp2 : (keysOf (newFormSetPayload fs2 t2)).Nodup := by
    rw [hkeys2]
    refine List.Nodup.append hnd2 (by decide) ?_
    intro k hk1 hk2
    simp only [List.mem_cons, List.not_mem_nil, or_false] at hk2
    rcases hk2 with h | h
    · subst h; exact h2st hk1
    · subst h; exact h2lu hk1
  have hnotin1 : ∀ k, k ∉ keysOf fs1 → k ≠ "submission_timestamp" →
      k ≠ "last_updated" → k ∉ keysOf (newFormSetPayload fs1 t1) := by
    intro k hk hst hlu hmem
    rw [hkeys1] at hmem
    rcases List.mem_append.mp hmem with h | h
    · exact hk h
    · simp only [List.mem_cons, List.not_mem_nil, or_false] at h
      rcases h with h | h
      · exact hst h
      · exact hlu h
  have hnotin2 : ∀ k, k ∉ keysOf fs2 → k ≠ "submission_timestamp" →
      k ≠ "last_updated" → k ∉ keysOf (newFormSetPayload fs2 t2) := by
    intro k hk hst hlu hmem
    rw [hkeys2] at hmem
    rcases List.mem_append.mp hmem with h | h
    · exact hk h
    · simp only [List.mem_cons, List.not_mem_nil, or_false] at h
      rcases h with h | h
      · exact hst h
      · exact hlu h
  -- the first upsert inserts
  have hany0 : db.any
      (fun d => d.lookup "user_id" == some (Val.str uid)) = false := by
    rw [List.any_eq_false]
    intro d hd hpred
    have : d ∈ formDocsFor db uid := List.mem_filter.mpr ⟨hd, hpred⟩
    rw [hzero] at this
    cases this
  have hbase : setAll (setAll [("user_id", Val.str uid)]
      [("user_id", Val.str uid), ("created_at", Val.time t1),
       ("user_ip", Val.str localIp)]) (newFormSetPayload fs1 t1) =
      setAll (insertBase uid t1) (newFormSetPayload fs1 t1) := rfl
  have hdb1 : formUpsert db uid (newFormSetPayload fs1 t1) t1 =
      db ++ [setAll (insertBase uid t1) (newFormSetPayload fs1 t1)] := by
    unfold formUpsert
    rw [hany0]
    simp only [Bool.false_eq_true, if_false]
    rw [hbase]
  -- facts about the inserted document
  have hui_p1 : "user_id" ∉ keysOf (newFormSetPayload fs1 t1) :=
    hnotin1 "user_id" h1u (by decide) (by decide)
  have hca_p1 : "created_at" ∉ keysOf (newFormSetPayload fs1 t1) :=
    hnotin1 "created_at" h1ca (by decide) (by decide)
  have hdoc1_user : (setAll (insertBase uid t1)
      (newFormSetPayload fs1 t1)).lookup "user_id" = some (.str uid) := by
    rw [lookup_setAll_not_mem _ _ _ hui_p1]
    rfl
  have hdoc1_created : (setAll (insertBase uid t1)
      (newFormSetPayload fs1 t1)).lookup "created_at" = some (.time t1) := by
    rw [lookup_setAll_not_mem _ _ _ hca_p1]
    rfl
  have hdoc1_f1 : ∀ k v, (k, v) ∈ fs1 →
      (setAll (insertBase uid t1) (newFormSetPayload fs1 t1)).lookup k
        = some v := by
    intro k v hkv
    refine lookup_setAll_mem _ _ _ _ ?_ hndp1
    rw [hp1]
    exact List.mem_append_left _ hkv
  have hpred1 : ((setAll (insertBase uid t1)
      (newFormSetPayload fs1 t1)).lookup "user_id"
        == some (Val.str uid)) = true := by
    rw [hdoc1_user]
    exact beq_iff_eq.mpr rfl
  have hdocs1 : formDocsFor (formUpsert db uid (newFormSetPayload fs1 t1) t1)
      uid = [setAll (insertBase uid t1) (newFormSetPayload fs1 t1)] := by
    rw [hdb1]
    unfold formDocsFor
    rw [List.filter_append]
    have h1 : db.filter
        (fun d => d.lookup "user_id" == some (Val.str uid)) = [] := hzero
    rw [h1, List.nil_append, List.filter_cons, hpred1]
    rfl
  -- the second upsert updates
  have hany1 : (formUpsert db uid (newFormSetPayload fs1 t1) t1).any
      (fun d => d.lookup "user_id" == some (Val.str uid)) = true := by
    rw [List.any_eq_true]
    refine ⟨setAll (insertBase uid t1) (newFormSetPayload fs1 t1), ?_, hpred1⟩
    rw [hdb1]
    exact List.mem_append_right _ (List.mem_singleton.mpr rfl)
  have hui_p2 : "user_id" ∉ keysOf (newFormSetPayload fs2 t2) :=
    hnotin2 "user_id" h2u (by decide) (by decide)
  have hf2 : ∀ d : List (String × Val),
      (setAll d (newFormSetPayload fs2 t2)).lookup "user_id"
        = d.lookup "user_id" :=
    fun d => lookup_setAll_not_mem _ d _ hui_p2
  have hdb2 : formUpsert (formUpsert db uid (newFormSetPayload fs1 t1) t1)
      uid (newFormSetPayload fs2 t2) t2 =
      updateFirstForm "user_id" (formUpsert db uid (newFormSetPayload fs1 t1)
        t1) uid (fun d => setAll d (newFormSetPayload fs2 t2)) := by
    have hany1b := hany1
    generalize hg : formUpsert db uid (newFormSetPayload fs1 t1) t1 = A
    rw [hg] at hany1b
    unfold formUpsert
    rw [hany1b]
    simp
  obtain ⟨hspec1, hspec2⟩ := updateFirstForm_spec uid
    (fun d => setAll d (newFormSetPayload fs2 t2)) hf2
    (formUpsert db uid (newFormSetPayload fs1 t1) t1)
    (by rw [hdocs1]; exact Nat.le_refl 1)
  have hdocs2 : formDocsFor (formUpsert (formUpsert db uid
      (newFormSetPayload fs1 t1) t1) uid (newFormSetPayload fs2 t2) t2) uid =
      [setAll (setAll (insertBase uid t1) (newFormSetPayload fs1 t1))
        (newFormSetPayload fs2 t2)] := by
    rw [hdb2, hspec1, hdocs1]
    rfl
  refine ⟨?_, ?_, ?_, ?_⟩
  · unfold saveFormSubmissionE
    simp [huid]
  · unfold saveFormSubmissionE
    simp [huid]
  · intro data now2
    unfold newFormSetPayload newFormMutatedData
    constructor
    · rw [lookup_setVal_ne _ _ _ _ (by decide),
        lookup_setVal_ne _ _ _ _ (by decide),
        lookup_delKey_ne _ _ _ (by decide)]
      exact lookup_delKey_self data "user_id"
    · rw [lookup_setVal_ne _ _ _ _ (by decide),
        lookup_setVal_ne _ _ _ _ (by decide)]
      exact lookup_delKey_self _ "session_id"
  · refine ⟨setAll (setAll (insertBase uid t1) (newFormSetPayload fs1 t1))
      (newFormSetPayload fs2 t2), hdocs2, ?_, ?_, ?_, ?_, ?_, ?_, ?_, ?_⟩
    · intro k v hkv
      have hk1 : k ∈ keysOf fs1 := (mem_keysOf_iff fs1 k).mpr ⟨v, hkv⟩
      rw [lookup_setAll_not_mem _ _ _
        (hnotin2 k (hdisj k hk1) (fun he => h1st (he ▸ hk1))
          (fun he => h1lu (he ▸ hk1)))]
      exact hdoc1_f1 k v hkv
    · intro k v hkv
      refine lookup_setAll_mem _ _ _ _ ?_ hndp2
      rw [hp2]
      exact List.mem_append_left _ hkv
    · rw [hf2]
      exact hdoc1_user
    · rw [lookup_setAll_not_mem _ _ _
        (hnotin2 "created_at" h2ca (by decide) (by decide))]
      exact hdoc1_created
    · refine lookup_setAll_mem _ _ _ _ ?_ hndp2
      rw [hp2]
      exact List.mem_append_right _ (by simp)
    · refine lookup_setAll_mem _ _ _ _ ?_ hndp2
      rw [hp2]
      exact List.mem_append_right _ (by simp)
    · intro d1 hd1 k hk2 hklu hkst
      rw [hdocs1] at hd1
      cases hd1
      exact lookup_setAll_not_mem _ _ _ (hnotin2 k hk2 hkst hklu)
    · intro d hd hne
      rw [hdb2] at hd
      have hmem := hspec2 d hd hne
      rw [hdb1] at hmem
      rcases List.mem_append.mp hmem with h | h
      · exact h
      · simp only [List.mem_singleton] at h
        subst h
        exact absurd hdoc1_user hne

/-- C8 counterexample: `upsert(p, {a: 1})` at tick 1 then
`upsert(p, {b: 2})` at tick 2 — the second write changes the document's
`submission_timestamp` from tick 1 to tick 2, a key that is neither in
its `partial_fields` nor `last_updated`, so "each write changes only the
keys present in its partial_fields (plus last_updated)" fails. -/
theorem c8_form_merge_counterexample :
    saveFormSubmissionE true none [] "p" [("a", Val.nat 1)] 1 =
      .ok (true,
        [[("user_id", Val.str "p"), ("created_at", Val.time 1),
          ("user_ip", Val.str "127.0.0.1"), ("a", Val.nat 1),
          ("submission_timestamp", Val.time 1),
          ("last_updated", Val.time 1)]],
        [("a", Val.nat 1), ("submission_timestamp", Val.time 1)]) ∧
    saveFormSubmissionE true none
      [[("user_id", Val.str "p"), ("created_at", Val.time 1),
        ("user_ip", Val.str "127.0.0.1"), ("a", Val.nat 1),
        ("submission_timestamp", Val.time 1), ("last_updated", Val.time 1)]]
      "p" [("b", Val.nat 2)] 2 =
      .ok (true,
        [[("user_id", Val.str "p"), ("created_at", Val.time 1),
          ("user_ip", Val.str "127.0.0.1"), ("a", Val.nat 1),
          ("submission_timestamp", Val.time 2),
          ("last_updated", Val.time 2), ("b", Val.nat 2)]],
        [("b", Val.nat 2), ("submission_timestamp", Val.time 2)]) ∧
    ([("user_id", Val.str "p"), ("created_at", Val.time 1),
      ("user_ip", Val.str "127.0.0.1"), ("a", Val.nat 1),
      ("submission_timestamp", Val.time 1),
      ("last_updated", Val.time 1)] : List (String × Val)).lookup
        "submission_timestamp" = some (Val.time 1) ∧
    ([("user_id", Val.str "p"), ("created_at", Val.time 1),
      ("user_ip", Val.str "127.0.0.1"), ("a", Val.nat 1),
      ("submission_timestamp", Val.time 2), ("last_updated", Val.time 2),
      ("b", Val.nat 2)] : List (String × Val)).lookup
        "submission_timestamp" = some (Val.time 2) ∧
    Val.time 1 ≠ Val.time 2 ∧
    "submission_timestamp" ∉ keysOf [("b", Val.nat 2)] ∧
    "submission_timestamp" ≠ "last_updated" := by
  refine ⟨by rfl, by rfl, by rfl, by rfl, by decide, by decide, by decide⟩

/-- C8 witness: the P5 scenario — `{a: 1}` then `{b: 2}` for a fresh
participant yields one record holding both values, with `created_at`
from the first write and both stamps from the second. -/
theorem c8_form_merge_amended_witness :
    ∃ d2, formDocsFor (formUpsert (formUpsert [] "p"
        (newFormSetPayload [("a", Val.nat 1)] 1) 1) "p"
        (newFormSetPayload [("b", Val.nat 2)] 2) 2) "p" = [d2] ∧
      d2.lookup "a" = some (Val.nat 1) ∧
      d2.lookup "b" = some (Val.nat 2) ∧
      d2.lookup "user_id" = some (Val.str "p") ∧
      d2.lookup "created_at" = some (Val.time 1) ∧
      d2.lookup "last_updated" = some (Val.time 2) ∧
      d2.lookup "submission_timestamp" = some (Val.time 2) := by
  obtain ⟨h1, h2, h3, d2, hd, hf1, hf2, hu, hca, hlu, hst, hfr, hot⟩ :=
    c8_form_merge_amended [] "p" [("a", Val.nat 1)] [("b", Val.nat 2)] 1 2
      rfl (by decide) (by decide) (by decide) (by decide) (by decide)
      (by decide)
  exact ⟨d2, hd, hf1 "a" (Val.nat 1) (by simp), hf2 "b" (Val.nat 2) (by simp),
    hu, hca, hlu, hst⟩

/-- C10 counterexample: the older handler's `save_form_submission` pops
only `session_id` (line 185) — after a call whose payload carries
`user_id`, the caller's dictionary still contains `user_id`, against the
claim that both handlers remove it. -/
theorem c10_mutation_counterexample :
    oldSaveFormSubmissionE true none [] "sess" [("user_id", Val.str "x")] 0 =
      .ok (true,
        [[("session_id", Val.str "sess"), ("created_at", Val.time 0),
          ("user_ip", Val.str "127.0.0.1"), ("user_id", Val.str "x"),
          ("last_updated", Val.time 0)]],
        [("user_id", Val.str "x")]) ∧
    ([("user_id", Val.str "x")] : List (String × Val)).lookup "user_id" =
      some (Val.str "x") := by
  exact ⟨by rfl, by rfl⟩

/-- C10 amended: both handlers mutate the caller's dictionary in place.
The newer one removes `user_id` and `session_id` and adds
`submission_timestamp`, leaving every other key untouched; the older
one removes only `session_id` (not `user_id`).  The mutated dictionary
is what the caller holds after the call, even when the database write
fails. -/
theorem c10_inplace_mutation_amended :
    (∀ (dbFail : Option PyExc) (db : List (List (String × Val)))
       (uid : String) (data : List (String × Val)) (now : Nat),
       (uid == "") = false →
       ∃ ok db2, saveFormSubmissionE true dbFail db uid data now =
         .ok (ok, db2, newFormMutatedData data now)) ∧
    (∀ (data : List (String × Val)) (now : Nat),
       (newFormMutatedData data now).lookup "user_id" = none ∧
       (newFormMutatedData data now).lookup "session_id" = none ∧
       (newFormMutatedData data now).lookup "submission_timestamp" =
         some (.time now) ∧
       (∀ k, (k == "user_id") = false → (k == "session_id") = false →
         (k == "submission_timestamp") = false →
         (newFormMutatedData data now).lookup k = data.lookup k)) ∧
    (∀ (dbFail : Option PyExc) (db : List (List (String × Val)))
       (sid : String) (data : List (String × Val)) (now : Nat),
       ∃ ok db2, oldSaveFormSubmissionE true dbFail db sid data now =
         .ok (ok, db2, oldFormMutatedData data)) ∧
    (∀ data : List (String × Val),
       (oldFormMutatedData data).lookup "session_id" = none ∧
       (∀ k, (k == "session_id") = false →
         (oldFormMutatedData data).lookup k = data.lookup k)) := by
  refine ⟨?_, ?_, ?_, ?_⟩
  · intro dbFail db uid data now huid
    cases dbFail with
    | none =>
      refine ⟨true, formUpsert db uid (newFormSetPayload data now) now, ?_⟩
      unfold saveFormSubmissionE
      simp [huid]
    | some e =>
      refine ⟨false, db, ?_⟩
      unfold saveFormSubmissionE
      simp [huid]
  · intro data now
    refine ⟨?_, ?_, ?_, ?_⟩
    · unfold newFormMutatedData
      rw [lookup_setVal_ne _ _ _ _ (by decide),
        lookup_delKey_ne _ _ _ (by decide)]
      exact lookup_delKey_self data "user_id"
    · unfold newFormMutatedData
      rw [lookup_setVal_ne _ _ _ _ (by decide)]
      exact lookup_delKey_self _ "session_id"
    · exact lookup_setVal_self _ _ _
    · intro k hu hs hst
      unfold newFormMutatedData
      rw [lookup_setVal_ne _ _ _ _ hst, lookup_delKey_ne _ _ _ hs,
        lookup_delKey_ne _ _ _ hu]
  · intro dbFail db sid data now
    cases dbFail with
    | none =>
      refine ⟨true, ?db2, ?_⟩
      case db2 =>
        exact (if db.any
            (fun d => d.lookup "session_id" == some (.str sid)) then
          updateFirstForm "session_id" db sid (fun d =>
            setAll d (setVal (oldFormMutatedData data) "last_updated"
              (.time now)))
        else
          db ++ [setAll (setAll [("session_id", .str sid)]
                  [("session_id", .str sid), ("created_at", .time now),
                   ("user_ip", .str localIp)])
                 (setVal (oldFormMutatedData data) "last_updated"
                   (.time now))])
      unfold oldSaveFormSubmissionE
      simp
    | some e =>
      refine ⟨false, db, ?_⟩
      unfold oldSaveFormSubmissionE
      simp
  · intro data
    refine ⟨lookup_delKey_self data "session_id", ?_⟩
    intro k hs
    exact lookup_delKey_ne data "session_id" k hs

/-- C10 amended witness: concrete calls through both handlers — the
newer strips `user_id`/`session_id` and stamps `submission_timestamp`
while preserving `x`; the older strips only `session_id`. -/
theorem c10_inplace_mutation_amended_witness :
    (∃ ok db2, saveFormSubmissionE true none [] "p"
        [("x", Val.nat 5), ("user_id", Val.str "p")] 3 =
      .ok (ok, db2,
        newFormMutatedData [("x", Val.nat 5), ("user_id", Val.str "p")] 3)) ∧
    (newFormMutatedData [("x", Val.nat 5), ("user_id", Val.str "p")] 3).lookup
      "user_id" = none ∧
    (newFormMutatedData [("x", Val.nat 5), ("user_id", Val.str "p")] 3).lookup
      "x" = some (Val.nat 5) ∧
    (∃ ok db2, oldSaveFormSubmissionE true none [] "s"
        [("session_id", Val.str "s")] 3 =
      .ok (ok, db2, oldFormMutatedData [("session_id", Val.str "s")])) ∧
    (oldFormMutatedData [("session_id", Val.str "s")]).lookup "session_id" =
      none := by
  refine ⟨?_, ?_, ?_, ?_, ?_⟩
  · exact c10_inplace_mutation_amended.1 none [] "p"
      [("x", Val.nat 5), ("user_id", Val.str "p")] 3 (by decide)
  · exact (c10_inplace_mutation_amended.2.1
      [("x", Val.nat 5), ("user_id", Val.str "p")] 3).1
  · exact (c10_inplace_mutation_amended.2.1
      [("x", Val.nat 5), ("user_id", Val.str "p")] 3).2.2.2 "x" (by decide)
      (by decide) (by decide) |>.trans (by decide)
  · exact c10_inplace_mutation_amended.2.2.1 none [] "s"
      [("session_id", Val.str "s")] 3
  · exact (c10_inplace_mutation_amended.2.2.2
      [("session_id", Val.str "s")]).1

end Theranostics
